import Mathlib

/-!
Verification development for the turn-based 1v1 tactical combat server
(`wad2-backend`).  The definitions below are a shallow embedding of the
game engine: `src/controllers/activegame.js` (deterministic world
generation) and `src/controllers/move.js` (action resolution, AI turn
loop, archival), plus the resign endpoint.

Modelling conventions:
* JavaScript 32-bit integer arithmetic (`>>> 0`, `Math.imul`, `^`, `|`,
  shifts) is modelled on `Nat` with explicit `% 2^32`; the signed
  `Math.imul` result only ever feeds further bitwise/mod-2^32 operations,
  so tracking the unsigned residue is exact.
* `mulberry32` returns the double `k / 2^32` with `k < 2^32`; every use
  of the stream in the generator is of the form `Math.floor(rng()*n)`
  with `k*n < 2^53`, which is exact in binary64 and equals `k*n / 2^32`
  in integer arithmetic.  The stateful closure advances its state by a
  fixed constant per call, so the stream is a pure function of the call
  index; consumers thread an explicit cursor, advancing it by exactly
  the number of calls the JavaScript code makes.
* Decimal literals (loot weights, resource densities) are modelled as
  exact fractions (`UFrac`, `QF` below; `ℚ` itself does not reduce
  inside the kernel).  For the resource densities and top-percent
  slices we use the exact binary64 values of the JavaScript literals
  `0.18`, `0.14`, `0.08`, `0.1`, `0.3`, since those are the values the
  code multiplies with; at the grid sizes used in concrete theorems the
  double products round exactly, so exact fraction arithmetic agrees
  with the JavaScript double arithmetic.  No theorem below depends on
  the loot weight values other than the singleton grade table at
  `elo = 1200`, so for the weight tables the nominal decimal values are
  used.
* Cells are `[x, y]` pairs of JavaScript numbers; resolvers can form
  out-of-range intermediate targets, so cells are `ℤ × ℤ`.
-/

set_option maxRecDepth 1000000
set_option maxHeartbeats 4000000

abbrev Cell := Int × Int

/-- `manhattan` from both controllers: `|ax−bx| + |ay−by|`. -/
def manhattan (a b : Cell) : Nat := (a.1 - b.1).natAbs + (a.2 - b.2).natAbs

def M32 : Nat := 4294967296

/-- `hashString32` (activegame.js): FNV-1a-style 32-bit string hash.  The JS
body computes `h + (h<<1) + (h<<4) + (h<<7) + (h<<8) + (h<<24)` with
`>>> 0`, which is `h * 16777619 mod 2^32`. -/
def hashString32 (s : String) : Nat :=
  s.data.foldl (fun h c => ((h ^^^ c.toNat) * 16777619) % M32) 0x811c9dc5

/-- Output of the `mulberry32` closure on its `i`-th call (0-based).  The
closure's state is `seed + (i+1) * 0x6D2B79F5 mod 2^32` at that call. -/
def mulberry32At (seed i : Nat) : Nat :=
  let t := (seed + (i + 1) * 0x6D2B79F5) % M32
  let r := ((t ^^^ (t >>> 15)) * (t ||| 1)) % M32
  let r := r ^^^ ((r + ((r ^^^ (r >>> 7)) * (r ||| 61)) % M32) % M32)
  (r ^^^ (r >>> 14)) % M32

/-- `rngFromSeed` (activegame.js): namespaced sub-stream, as the function
from call index to the integer numerator of the returned double. -/
def rngFromSeed (seedStr ns : String) : Nat → Nat :=
  mulberry32At (hashString32 (seedStr ++ "::" ++ ns))

/-- `Math.floor(rng() * n)` where the stream returned `k / 2^32`:
exact integer form (the double product is exact for `k*n < 2^53`). -/
def jsFloorScale (k n : Nat) : Nat := (k * n) / M32

/-- `String.prototype.startsWith` (JS) / `String.startsWith` on the
character list (the byte-position implementation in core Lean does not
reduce in the kernel). -/
def jsStartsWith (s pre : String) : Bool := pre.data.isPrefixOf s.data

/-- `String.prototype.endsWith` on the character list. -/
def jsEndsWith (s suf : String) : Bool := suf.data.isSuffixOf s.data

/-- Non-negative exact fraction (numerator/denominator), for the resource
densities and spawn top-percent factors. -/
structure UFrac where
  num : Nat
  den : Nat
deriving DecidableEq, Repr

/-- Signed exact fraction, for the running total in `weightedChoice`. -/
structure QF where
  num : Int
  den : Nat
deriving DecidableEq, Repr

/-- Product of two signed fractions (no normalisation needed). -/
def QF.mul (a b : QF) : QF := ⟨a.num * b.num, a.den * b.den⟩

/-- Difference of two signed fractions by cross-multiplication. -/
def QF.sub (a b : QF) : QF := ⟨a.num * (b.den : Int) - b.num * (a.den : Int), a.den * b.den⟩

/-- Sum of two signed fractions by cross-multiplication. -/
def QF.add (a b : QF) : QF := ⟨a.num * (b.den : Int) + b.num * (a.den : Int), a.den * b.den⟩

/-- The fraction is `≤ 0` (denominators are always positive here). -/
def QF.nonpos (a : QF) : Prop := a.num ≤ 0

instance (a : QF) : Decidable a.nonpos := Int.decLe _ _

/-- Value of `rng()` as an exact fraction `k / 2^32`. -/
def rngQF (rng : Nat → Nat) (c : Nat) : QF := ⟨(rng c : Int), M32⟩

/-- `choice(rng, arr)` (activegame.js): `arr[Math.floor(rng()*arr.length)]`.
Consumes one stream value.  The fallback cell is unreachable for real
streams (`k < 2^32` gives an in-range index on a non-empty array). -/
def jsChoice (rng : Nat → Nat) (c : Nat) (a : List Cell) : Cell :=
  (a.get? (jsFloorScale (rng c) a.length)).getD (0, 0)

/-- Swap two positions of a list (used to mirror the in-place Fisher–Yates
swaps); out-of-range indices leave the list unchanged. -/
def listSwap (a : List α) (i j : Nat) : List α :=
  match a.get? i, a.get? j with
  | some x, some y => (a.set i y).set j x
  | _, _ => a

/-- Fisher–Yates loop of `shuffleInPlace`: iteration at `i = i' + 1` uses
`j = Math.floor(rng() * (i+1))` and swaps `a[i]` with `a[j]`. -/
def fisherYatesAux (rng : Nat → Nat) : Nat → List α → Nat → List α
  | _, a, 0 => a
  | c, a, Nat.succ i' =>
    let j := jsFloorScale (rng c) (i' + 2)
    fisherYatesAux rng (c + 1) (listSwap a (i' + 1) j) i'

/-- `shuffleInPlace(rng, a)` (activegame.js), consuming `a.length - 1`
stream values starting at cursor `c`. -/
def shuffleInPlace (rng : Nat → Nat) (c : Nat) (a : List α) : List α :=
  fisherYatesAux rng c a (a.length - 1)

/-- `weightedChoice` inner loop: `if ((r -= w) <= 0) return v`. -/
def weightedChoiceAux : QF → List (α × QF) → Option α
  | _, [] => none
  | r, (v, w) :: rest =>
    if (r.sub w).nonpos then some v else weightedChoiceAux (r.sub w) rest

/-- `weightedChoice(rng, entries)` (activegame.js) with the stream value
`q = rng()` supplied: starts from `r = q * total` and falls back to the
last entry (`dflt` stands in for the JS crash on an empty list). -/
def weightedChoice (q : QF) (entries : List (α × QF)) (dflt : α) : α :=
  let total := (entries.map Prod.snd).foldl QF.add ⟨0, 1⟩
  match weightedChoiceAux (q.mul total) entries with
  | some v => v
  | none => ((entries.getLast?).map Prod.fst).getD dflt

/-- `allCells(w, h)` (activegame.js): x-major enumeration of the grid. -/
def allCells (w h : Nat) : List Cell :=
  (List.range w).flatMap (fun x => (List.range h).map (fun y => ((x : Int), (y : Int))))

/-- `ringCells(w, h, cx, cy, d)` (activegame.js): the cells at Manhattan
distance exactly `d` from `(cx, cy)`, in grid enumeration order. -/
def ringCells (w h : Nat) (cx cy : Int) (d : Nat) : List Cell :=
  (allCells w h).filter (fun c => manhattan c (cx, cy) = d)

/-- `placeWithMinSpacing(rng, candidates, existing, minDist)` (activegame.js):
shuffle a copy of the candidates, return the first one at distance at least
`minDist` from every existing cell (or `none`).  Consumes
`candidates.length - 1` stream values. -/
def placeWithMinSpacing (rng : Nat → Nat) (c : Nat) (candidates existing : List Cell)
    (minDist : Nat) : Option Cell :=
  (shuffleInPlace rng c candidates).find?
    (fun cell => decide (∀ e ∈ existing, minDist ≤ manhattan e cell))

/-- Exact binary64 value of the JavaScript literal `0.18`. -/
def q018 : UFrac := ⟨3242591731706757, 18014398509481984⟩

/-- Exact binary64 value of the JavaScript literal `0.14`. -/
def q014 : UFrac := ⟨1261007895663739, 9007199254740992⟩

/-- Exact binary64 value of the JavaScript literal `0.08`. -/
def q008 : UFrac := ⟨5764607523034235, 72057594037927936⟩

/-- Exact binary64 value of the JavaScript literal `0.1`. -/
def q01 : UFrac := ⟨3602879701896397, 36028797018963968⟩

/-- Exact binary64 value of the JavaScript literal `0.3`. -/
def q03 : UFrac := ⟨5404319552844595, 18014398509481984⟩

/-- Bit length of a natural number, by fuel (the fuel of 128 covers every
product formed here). -/
def bitLenAux : Nat → Nat → Nat
  | 0, _ => 0
  | Nat.succ fuel, n => if n = 0 then 0 else bitLenAux fuel (n / 2) + 1

/-- Bit length of a natural number. -/
def bitLen (n : Nat) : Nat := bitLenAux 128 n

/-- Round an integer to 53 significant bits, ties to even — the binary64
rounding of the product `f * n` (whose denominator is a power of two, so
only the significand can overflow).  Returns `(q, e)` with rounded value
`q * 2^e`. -/
def round53 (M : Nat) : Nat × Nat :=
  let b := bitLen M
  if b ≤ 53 then (M, 0)
  else
    let d := b - 53
    let q := M / 2 ^ d
    let r := M % 2 ^ d
    let half := 2 ^ (d - 1)
    let q' := if half < r then q + 1
              else if r < half then q
              else if q % 2 = 0 then q else q + 1
    (q', d)

/-- `Math.round(f * n)` for a non-negative dyadic fraction `f`: the
product is first rounded to binary64 (`round53`), then `Math.round`
takes the closest integer with ties toward `+∞`. -/
def jsRoundMul (f : UFrac) (n : Nat) : Nat :=
  let p := round53 (f.num * n)
  let den := f.den / 2 ^ p.2
  (2 * p.1 + den) / (2 * den)

/-- `Math.floor(f * n)` for a non-negative dyadic fraction `f`: the
product is rounded to binary64 first, then floored. -/
def jsFloorMul (f : UFrac) (n : Nat) : Nat :=
  let p := round53 (f.num * n)
  p.1 / (f.den / 2 ^ p.2)

/-- `computeResourceTotals(w, h)` (activegame.js): target counts for
trees, stones and hay as rounded fractions of the cell count. -/
def computeResourceTotals (w h : Nat) : Nat × Nat × Nat :=
  (max 1 (jsRoundMul q018 (w * h)),
   max 1 (jsRoundMul q014 (w * h)),
   max 1 (jsRoundMul q008 (w * h)))

/-- `blueNoisePlace` iteration over the shuffled cells: skip forbidden
cells, accept a cell when every cell already placed *in this call* is at
distance at least `minSep`, and stop once `count` cells were placed. -/
def bnpAux (count minSep : Nat) (forbidden : List Cell) : List Cell → List Cell → List Cell
  | [], placed => placed
  | c :: rest, placed =>
    if c ∈ forbidden then bnpAux count minSep forbidden rest placed
    else if ∀ p ∈ placed, minSep ≤ manhattan p c then
      if count ≤ (placed ++ [c]).length then placed ++ [c]
      else bnpAux count minSep forbidden rest (placed ++ [c])
    else bnpAux count minSep forbidden rest placed

/-- `blueNoisePlace(rng, w, h, count, minSep, forbidden)` (activegame.js).
The forbidden set of `"x,y"` strings is modelled as a cell list (the key
encoding is injective).  Consumes `w*h - 1` stream values (the shuffle). -/
def blueNoisePlace (rng : Nat → Nat) (cur : Nat) (w h count minSep : Nat)
    (forbidden : List Cell) : List Cell :=
  bnpAux count minSep forbidden (shuffleInPlace rng cur (allCells w h)) []

structure Resources where
  trees : List Cell
  stones : List Cell
  hay : List Cell
deriving DecidableEq, Repr

/-- `seedResources(rngRes, w, h, P, A)` (activegame.js): three blue-noise
passes on one stream; each pass forbids the spawn cells and the cells of
the previous kinds (exact-cell overlap only).  Each pass consumes
`w*h - 1` stream values, hence the cursor offsets. -/
def seedTrees (rng : Nat → Nat) (c : Nat) (w h : Nat) (P A : Cell) : List Cell :=
  blueNoisePlace rng c w h (computeResourceTotals w h).1 1 [P, A]

def seedStones (rng : Nat → Nat) (c : Nat) (w h : Nat) (P A : Cell) : List Cell :=
  blueNoisePlace rng (c + (w * h - 1)) w h (computeResourceTotals w h).2.1 2
    ([P, A] ++ seedTrees rng c w h P A)

def seedHay (rng : Nat → Nat) (c : Nat) (w h : Nat) (P A : Cell) : List Cell :=
  blueNoisePlace rng (c + 2 * (w * h - 1)) w h (computeResourceTotals w h).2.2 1
    ([P, A] ++ seedTrees rng c w h P A ++ seedStones rng c w h P A)

def seedResources (rng : Nat → Nat) (c : Nat) (w h : Nat) (P A : Cell) : Resources :=
  ⟨seedTrees rng c w h P A, seedStones rng c w h P A, seedHay rng c w h P A⟩

/-- `sameRow` (activegame.js). -/
def sameRow (a b : Cell) : Prop := a.2 = b.2

instance : DecidablePred (fun p : Cell × Cell => sameRow p.1 p.2) := fun _ => decEq _ _

instance (a b : Cell) : Decidable (sameRow a b) := decEq a.2 b.2

/-- Centrality score used to sort spawn candidates:
`min(x, w-1-x) + min(y, h-1-y)`. -/
def centrality (w h : Nat) (c : Cell) : Int :=
  min c.1 ((w : Int) - 1 - c.1) + min c.2 ((h : Int) - 1 - c.2)

/-- Interior spawn candidates `1 ≤ x ≤ w-2`, `1 ≤ y ≤ h-2`, x-major. -/
def interiorCells (w h : Nat) : List Cell :=
  (List.range' 1 (w - 2)).flatMap
    (fun x => (List.range' 1 (h - 2)).map (fun y => ((x : Int), (y : Int))))

/-- The candidate list sorted by centrality descending.  The JS
`Array.prototype.sort` is stable, and a stable sort under a total
preorder has a unique result, so the (stable) insertion sort produces
the same list. -/
def sortedCandidates (w h : Nat) : List Cell :=
  (interiorCells w h).insertionSort (fun a b => centrality w h b ≤ centrality w h a)

/-- The AI-spawn constraint `Math.abs(A[0] - P[0]) >= 10 && !sameRow(P, A)`. -/
def aiSpawnPred (P A : Cell) : Prop := 10 ≤ (A.1 - P.1).natAbs ∧ ¬ sameRow P A

instance (P A : Cell) : Decidable (aiSpawnPred P A) := by
  unfold aiSpawnPred; infer_instance

structure SpawnOut where
  player : Cell
  ai : Cell
  colSeparationOK : Bool
  initialStraightLOS : Bool
deriving DecidableEq, Repr

/-- `pickSpawnPositions(rngSpawn, w, h, elo)` (activegame.js).  The player
spawn is a uniform choice from the top `10%`/`30%` most central interior
cells, the AI spawn a uniform choice among candidates with column
separation at least 10 and a different row, falling back to any candidate.
Consumes stream values at cursors `c` and `c+1`. -/
def pickSpawnPositions (rng : Nat → Nat) (c : Nat) (w h : Nat) (elo : Int) : SpawnOut :=
  let candidates := sortedCandidates w h
  let topPct : UFrac := if elo ≤ 800 then q01 else q03
  let pickFrom := candidates.take (max 1 (jsFloorMul topPct candidates.length))
  let P := jsChoice rng c pickFrom
  let aiCandidates := candidates.filter (fun A => decide (aiSpawnPred P A))
  let A := if aiCandidates.isEmpty then jsChoice rng (c + 1) candidates
           else jsChoice rng (c + 1) aiCandidates
  { player := P, ai := A,
    colSeparationOK := decide (10 ≤ (A.1 - P.1).natAbs),
    initialStraightLOS := false }

/-- `SEEDING_VERSION` (activegame.js). -/
def SEEDING_VERSION : String := "v1.1"

/-- The canonical seed key `"S:<seed>|W:<w>|H:<h>|V:<version>"`. -/
def seedKeyFor (seed : String) (w h : Nat) : String :=
  "S:" ++ seed ++ "|W:" ++ toString w ++ "|H:" ++ toString h ++ "|V:" ++ SEEDING_VERSION

/-- Spawn part of world generation for given `(seed, w, h, elo)`:
`pickSpawnPositions` on the namespaced `"spawn"` stream. -/
def genSpawn (seed : String) (w h : Nat) (elo : Int) : SpawnOut :=
  pickSpawnPositions (rngFromSeed (seedKeyFor seed w h) "spawn") 0 w h elo

/-- Resource part of world generation: `seedResources` on the `"resources"`
stream, with the generated spawn cells forbidden. -/
def genResources (seed : String) (w h : Nat) (elo : Int) : Resources :=
  let s := genSpawn seed w h elo
  seedResources (rngFromSeed (seedKeyFor seed w h) "resources") 0 w h s.player s.ai

/-- Weight-table triple returned by `makeLootTable(elo)` (activegame.js). -/
structure LootTable where
  typeW : List (String × QF)
  classW : List (String × QF)
  gradeW : List (Nat × QF)
deriving DecidableEq, Repr

/-- `makeLootTable(elo)` (activegame.js): ELO-bucketed loot weight tables;
at `elo == 1200` exactly, the grade table is the singleton `[[1, 1.0]]`. -/
def makeLootTable (elo : Int) : LootTable :=
  let base : LootTable :=
    { typeW := [("weapon", ⟨7, 10⟩), ("healing", ⟨3, 10⟩)],
      classW := [("straight", ⟨28, 100⟩), ("diag", ⟨18, 100⟩), ("arc", ⟨22, 100⟩),
                 ("lob", ⟨22, 100⟩), ("melee", ⟨10, 100⟩)],
      gradeW := [(1, ⟨55, 100⟩), (2, ⟨35, 100⟩), (3, ⟨10, 100⟩)] }
  let t : LootTable :=
    if elo ≤ 800 then
      { typeW := [("weapon", ⟨6, 10⟩), ("healing", ⟨4, 10⟩)],
        classW := [("straight", ⟨23, 100⟩), ("diag", ⟨18, 100⟩), ("arc", ⟨22, 100⟩),
                   ("lob", ⟨27, 100⟩), ("melee", ⟨10, 100⟩)],
        gradeW := [(1, ⟨40, 100⟩), (2, ⟨45, 100⟩), (3, ⟨15, 100⟩)] }
    else if 1800 ≤ elo then
      { typeW := [("weapon", ⟨75, 100⟩), ("healing", ⟨25, 100⟩)],
        classW := [("straight", ⟨33, 100⟩), ("diag", ⟨23, 100⟩), ("arc", ⟨19, 100⟩),
                   ("lob", ⟨19, 100⟩), ("melee", ⟨6, 100⟩)],
        gradeW := [(1, ⟨60, 100⟩), (2, ⟨30, 100⟩), (3, ⟨10, 100⟩)] }
    else base
  if elo = 1200 then { t with gradeW := [(1, ⟨1, 1⟩)] } else t

/-- Healing sub-weights used by `pickLootKey`. -/
def healsW : List (String × QF) :=
  [("heal.small", ⟨1, 1⟩), ("heal.medium", ⟨1, 1⟩), ("heal.large", ⟨1, 1⟩),
   ("heal.major", ⟨6, 10⟩)]

/-- `pickLootKey(rng, elo)` (activegame.js): nested weighted choices for
type, then heal kind or class and grade.  Returns the key and the new
cursor (one stream value per weighted choice). -/
def pickLootKey (rng : Nat → Nat) (c : Nat) (elo : Int) : String × Nat :=
  let t := makeLootTable elo
  let ty := weightedChoice (rngQF rng c) t.typeW "healing"
  if ty = "healing" then
    (weightedChoice (rngQF rng (c + 1)) healsW "heal.small", c + 2)
  else
    let cls := weightedChoice (rngQF rng (c + 1)) t.classW "melee"
    let g := weightedChoice (rngQF rng (c + 2)) t.gradeW 1
    ("weapon." ++ cls ++ ".t" ++ toString g, c + 3)

structure LootItem where
  pos : Cell
  key : String
deriving DecidableEq, Repr

/-- Accumulator of the `placeLoot` main loop: placed items, occupied cells
(the JS `used` set and `usedList` array share their contents), the
heal-seen flag and the weapon count. -/
structure LootAcc where
  loot : List LootItem
  usedList : List Cell
  ensuredHeal : Bool
  weaponCount : Nat
deriving DecidableEq, Repr

/-- One attempt of `pickNear`'s ring loop at distance `d`: filter out used
cells, shuffle the ring in place (result fed to `placeWithMinSpacing`,
which shuffles its own copy again), then place with spacing 2. -/
def pickNearRing (rng : Nat → Nat) (c : Nat) (w h : Nat) (used : List Cell)
    (target : Cell) (d : Nat) : Option Cell × Nat :=
  let ring := (ringCells w h target.1 target.2 d).filter (fun x => decide (x ∉ used))
  let ring' := shuffleInPlace rng c ring
  let c' := c + (ring.length - 1)
  (placeWithMinSpacing rng c' ring' used 2, c' + (ring'.length - 1))

/-- `pickNear(target, dMin, dMax)` ring loop (recursion on the number of
remaining distances), then the fall-back over all free cells. -/
def pickNearAux (rng : Nat → Nat) (w h : Nat) (used : List Cell) (target : Cell) :
    Nat → Nat → Nat → Option Cell × Nat
  | _, 0, c =>
    let any := (allCells w h).filter (fun x => decide (x ∉ used))
    (placeWithMinSpacing rng c any used 2, c + (any.length - 1))
  | d, Nat.succ rem, c =>
    match pickNearRing rng c w h used target d with
    | (some p, c') => (some p, c')
    | (none, c') => pickNearAux rng w h used target (d + 1) rem c'

/-- `pickNear` inside `placeLoot` (activegame.js): try rings of Manhattan
distance `dMin..dMax` around the target, else any free cell, always with
minimum spacing 2 from every already-used loot cell. -/
def pickNear (rng : Nat → Nat) (c : Nat) (w h : Nat) (used : List Cell)
    (target : Cell) (dMin dMax : Nat) : Option Cell × Nat :=
  pickNearAux rng w h used target dMin (dMax + 1 - dMin) c

/-- Target mode for loot placement: `player` for `elo ≤ 800`, `ai` for
`elo ≥ 1800`, else the map centre with rings 4..6. -/
def lootSlotPos (rng : Nat → Nat) (c : Nat) (w h : Nat) (P A : Cell) (elo : Int)
    (used : List Cell) : Option Cell × Nat :=
  if elo ≤ 800 then pickNear rng c w h used P 2 4
  else if 1800 ≤ elo then pickNear rng c w h used A 2 4
  else pickNear rng c w h used ((w / 2 : Nat), (h / 2 : Nat)) 4 6

/-- Body of one `placeLoot` slot once a position and a drawn key are at
hand: demote a weapon over the cap to `"heal.small"`, bump the weapon
count, record heals for the pity rule, and append the item. -/
def lootSlotStep (acc : LootAcc) (pos : Cell) (key0 : String) (maxWeapons : Nat) : LootAcc :=
  if jsStartsWith key0 "weapon." then
    if maxWeapons ≤ acc.weaponCount then
      { acc with loot := acc.loot ++ [⟨pos, "heal.small"⟩], usedList := acc.usedList ++ [pos] }
    else
      { acc with loot := acc.loot ++ [⟨pos, key0⟩], usedList := acc.usedList ++ [pos],
                 weaponCount := acc.weaponCount + 1 }
  else
    { acc with loot := acc.loot ++ [⟨pos, key0⟩], usedList := acc.usedList ++ [pos],
               ensuredHeal := true }

/-- Main slot loop of `placeLoot` (recursion on the remaining slot count):
place a cell, draw a key, demote weapons over the cap to `"heal.small"`,
and record heals for the pity rule. -/
def placeLootLoop (rng : Nat → Nat) (w h : Nat) (P A : Cell) (elo : Int)
    (maxWeapons : Nat) : Nat → Nat → LootAcc → LootAcc × Nat
  | 0, c, acc => (acc, c)
  | Nat.succ n, c, acc =>
    match lootSlotPos rng c w h P A elo acc.usedList with
    | (none, c') => (acc, c')
    | (some pos, c') =>
      placeLootLoop rng w h P A elo maxWeapons n (pickLootKey rng c' elo).2
        (lootSlotStep acc pos (pickLootKey rng c' elo).1 maxWeapons)

/-- The pity rule after the main pass: when no healing was placed, append
one `"heal.small"` on a free cell with spacing 2 (when one exists). -/
def pityPass (rng : Nat → Nat) (w h : Nat) : LootAcc × Nat → List LootItem
  | (acc, c') =>
    if acc.ensuredHeal then acc.loot
    else
      match placeWithMinSpacing rng c'
          ((allCells w h).filter (fun x => decide (x ∉ acc.usedList))) acc.usedList 2 with
      | some pos => acc.loot ++ [⟨pos, "heal.small"⟩]
      | none => acc.loot

/-- `placeLoot(rngLoot, w, h, P, A, elo, totalLoot, maxWeapons)`
(activegame.js), including the pity rule appending one `"heal.small"`
when no healing was placed. -/
def placeLoot (rng : Nat → Nat) (c : Nat) (w h : Nat) (P A : Cell) (elo : Int)
    (totalLoot maxWeapons : Nat) : List LootItem :=
  pityPass rng w h (placeLootLoop rng w h P A elo maxWeapons totalLoot c ⟨[], [], false, 0⟩)


/-!
Action resolution (`src/controllers/move.js`).  The match document and
the resolvers.  JavaScript mutation of the working snapshot is modelled
by state passing; a thrown error is `Except.error` carrying the message,
which discards the working state exactly as the route's `catch` does.
Dates (`createdAt`, `updatedAt`, `endedAt`) and the external `users` and
`ai_policy` collections are outside the model: no claim below mentions
them, and the code never reads them back into the game state.
-/

structure Wall where
  pos : Cell
  hp : Int
deriving DecidableEq, Repr

structure Entity where
  pos : Cell
  hp : Int
  inventory : List (String × Nat)
  weapons : List String
  effectsMove2 : Bool
  userId : Option String
  handle : String
deriving DecidableEq, Repr

structure Winner where
  side : Option String
  userId : Option String
  handle : String
  isAI : Bool
deriving DecidableEq, Repr

structure HistEntry where
  actor : String
  action : String
deriving DecidableEq, Repr

structure PlayerSlot where
  slot : String
  role : String
  userId : Option String
  handle : String
deriving DecidableEq, Repr

structure GameState where
  gridW : Nat
  gridH : Nat
  elo : Int
  player : Entity
  ai : Entity
  walls : List Wall
  resources : Resources
  loot : List LootItem
  turnIndex : Nat
  currentActor : String
  status : String
  winner : Option Winner
  reason : Option String
  players : List PlayerSlot
  actionHistory : List HistEntry
  version : Nat
deriving DecidableEq, Repr

/-- Action recipe document (`recipe` collection).  The collection is
external data; resolvers receive it as a `Catalog` argument.  Optional
output fields carry the fallbacks applied at the point of use
(`?? 1`, `?? 20`, `|| 0`). -/
structure Recipe where
  key : String
  kind : String
  enabled : Bool
  costWood : Nat
  costStone : Nat
  costFood : Nat
  weaponClass : String := ""
  range : Nat := 0
  shootsOverWalls : Bool := false
  damage : Int := 0
  wallHp : Option Int := none
  wallMaxPlaceDistance : Option Nat := none
  heal : Option Int := none
deriving DecidableEq, Repr

abbrev Catalog := List Recipe

/-- Action parameters object; absent JSON fields are `none` (`toCell`
models the JS field `to`). -/
structure Params where
  toCell : Option Cell := none
  dx : Option Int := none
  dy : Option Int := none
  weaponKey : Option String := none
  target : Option Cell := none
  key : Option String := none
  pos : Option Cell := none
  itype : Option String := none
deriving DecidableEq, Repr

/-- Resolver result `{consumeTurn, meta}` restricted to the meta fields
the orchestrator and the claims read (`meta.ended`, hit and damage). -/
structure ResolveOut where
  consumeTurn : Bool
  ended : Bool := false
  hit : Bool := false
  damage : Int := 0
deriving DecidableEq, Repr

/-- `clamp(v, min, max)` (move.js). -/
def clamp (v lo hi : Int) : Int := max lo (min hi v)

/-- `inBounds(w, h, [x,y])` (move.js). -/
def inBounds (w h : Nat) (c : Cell) : Prop :=
  0 ≤ c.1 ∧ 0 ≤ c.2 ∧ c.1 < (w : Int) ∧ c.2 < (h : Int)

instance (w h : Nat) (c : Cell) : Decidable (inBounds w h c) := by
  unfold inBounds; infer_instance

/-- `cellOccupied(active, cell, ignorePlayer, ignoreAi)` (move.js): the
cell carries a non-ignored entity or any wall. -/
def cellOccupied (s : GameState) (c : Cell) (ignorePlayer ignoreAi : Bool) : Prop :=
  (ignorePlayer = false ∧ s.player.pos = c) ∨
  (ignoreAi = false ∧ s.ai.pos = c) ∨
  (∃ w ∈ s.walls, w.pos = c)

instance (s : GameState) (c : Cell) (ip ia : Bool) : Decidable (cellOccupied s c ip ia) := by
  unfold cellOccupied; infer_instance

/-- `getEntity` (move.js): `"player"` selects the player, anything else
the AI. -/
def getEntity (s : GameState) (who : String) : Entity :=
  if who = "player" then s.player else s.ai

/-- `getOpponent` (move.js). -/
def getOpponent (s : GameState) (who : String) : Entity :=
  if who = "player" then s.ai else s.player

/-- Write back the entity selected by `getEntity` (mutation through the
JS object reference). -/
def setEntity (s : GameState) (who : String) (e : Entity) : GameState :=
  if who = "player" then { s with player := e } else { s with ai := e }

/-- Write back the entity selected by `getOpponent`. -/
def setOpponent (s : GameState) (actor : String) (e : Entity) : GameState :=
  if actor = "player" then { s with ai := e } else { s with player := e }

/-- `hasStraightLine` (move.js). -/
def hasStraightLine (a b : Cell) : Prop := a.1 = b.1 ∨ a.2 = b.2

instance (a b : Cell) : Decidable (hasStraightLine a b) := by
  unfold hasStraightLine; infer_instance

/-- `hasDiagonalLine` (move.js). -/
def hasDiagonalLine (a b : Cell) : Prop := (a.1 - b.1).natAbs = (a.2 - b.2).natAbs

instance (a b : Cell) : Decidable (hasDiagonalLine a b) := decEq _ _

/-- `wallBlocksStraight(active, from, to)` (move.js): some wall strictly
between the endpoints on the shared row or column. -/
def wallBlocksStraight (s : GameState) (a b : Cell) : Prop :=
  hasStraightLine a b ∧
  ∃ w ∈ s.walls,
    (a.1 = b.1 ∧ w.pos.1 = a.1 ∧ min a.2 b.2 < w.pos.2 ∧ w.pos.2 < max a.2 b.2) ∨
    (a.2 = b.2 ∧ w.pos.2 = a.2 ∧ min a.1 b.1 < w.pos.1 ∧ w.pos.1 < max a.1 b.1)

instance (s : GameState) (a b : Cell) : Decidable (wallBlocksStraight s a b) := by
  unfold wallBlocksStraight; infer_instance

/-- `loadRecipe(db, key, expectedKind)` (move.js): `findOne({key, enabled:
true})`, then the kind check. -/
def loadRecipe (cat : Catalog) (key expectedKind : String) : Except String Recipe :=
  match cat.find? (fun r => r.key = key && r.enabled) with
  | none => .error ("recipe not found: " ++ key)
  | some r =>
    if r.kind ≠ expectedKind then .error ("recipe kind mismatch: expected " ++ expectedKind)
    else .ok r

/-- Inventory read `inv[k] || 0` (JS object as an association list in key
insertion order). -/
def invGet (inv : List (String × Nat)) (k : String) : Nat :=
  ((inv.find? (fun p => p.1 = k)).map Prod.snd).getD 0

/-- Inventory write `inv[k] = v`: update an existing key in place, append
a new key. -/
def invSet (inv : List (String × Nat)) (k : String) (v : Nat) : List (String × Nat) :=
  if inv.any (fun p => p.1 = k) then inv.map (fun p => if p.1 = k then (k, v) else p)
  else inv ++ [(k, v)]

/-- `payCostsOrThrow(entity, costs)` (move.js): check wood, stone, food in
order, then decrement all three (writing the keys even when a cost is 0,
as the JS assignment does). -/
def payCostsOrThrow (e : Entity) (r : Recipe) : Except String Entity :=
  if invGet e.inventory "wood" < r.costWood then .error "insufficient wood"
  else if invGet e.inventory "stone" < r.costStone then .error "insufficient stone"
  else if invGet e.inventory "food" < r.costFood then .error "insufficient food"
  else
    let inv := invSet e.inventory "wood" (invGet e.inventory "wood" - r.costWood)
    let inv := invSet inv "stone" (invGet inv "stone" - r.costStone)
    let inv := invSet inv "food" (invGet inv "food" - r.costFood)
    .ok { e with inventory := inv }

/-- `awardWeapon(entity, weaponKey)` (move.js): set-style append. -/
def awardWeapon (e : Entity) (weaponKey : String) : Entity :=
  if weaponKey ∈ e.weapons then e else { e with weapons := e.weapons ++ [weaponKey] }

/-- `putWall(active, pos, hp)` (move.js): reject a duplicate position,
else append. -/
def putWall (s : GameState) (pos : Cell) (hp : Int) : Except String GameState :=
  if ∃ w ∈ s.walls, w.pos = pos then .error "wall already present at target"
  else .ok { s with walls := s.walls ++ [⟨pos, hp⟩] }

/-- One group step of `tryPickupResources`: remove the first matching cell
and credit the inventory key. -/
def pickupGroup (res : List Cell) (inv : List (String × Nat)) (invKey : String)
    (pos : Cell) : List Cell × List (String × Nat) :=
  if pos ∈ res then (res.erase pos, invSet inv invKey (invGet inv invKey + 1))
  else (res, inv)

/-- `tryPickupResources(active, entity)` (move.js): auto-pickup one
resource per kind at the entity's position. -/
def tryPickupResources (s : GameState) (who : String) : GameState :=
  let e := getEntity s who
  let g1 := pickupGroup s.resources.trees e.inventory "wood" e.pos
  let g2 := pickupGroup s.resources.stones g1.2 "stone" e.pos
  let g3 := pickupGroup s.resources.hay g2.2 "food" e.pos
  setEntity { s with resources := ⟨g1.1, g2.1, g3.1⟩ } who { e with inventory := g3.2 }

/-- `tryPickupLoot(active, entity)` (move.js): remove the first loot item
at the entity's position; heal keys go to the inventory, anything else
to the weapon list. -/
def tryPickupLoot (s : GameState) (who : String) : GameState :=
  let e := getEntity s who
  match s.loot.find? (fun l => l.pos = e.pos) with
  | none => s
  | some item =>
    let s := { s with loot := s.loot.eraseP (fun l => l.pos = e.pos) }
    if jsStartsWith item.key "heal." then
      setEntity s who { e with inventory := invSet e.inventory item.key (invGet e.inventory item.key + 1) }
    else
      setEntity s who (awardWeapon e item.key)

/-- The step allowance of `resolveMove` (`entity.effects.move2 ? 2 : 1`). -/
def moveMaxStep (e : Entity) : Nat := if e.effectsMove2 then 2 else 1

/-- `resolveMove(active, actor, params)` (move.js). -/
def resolveMove (s : GameState) (actor : String) (p : Params) :
    Except String (GameState × ResolveOut) :=
  let ent := getEntity s actor
  let target? : Option Cell :=
    match p.toCell with
    | some t => some t
    | none => match p.dx, p.dy with
      | some dx, some dy => some (ent.pos.1 + dx, ent.pos.2 + dy)
      | _, _ => none
  match target? with
  | none => .error "invalid move params"
  | some target =>
    if ¬ inBounds s.gridW s.gridH target then .error "out of bounds"
    else
      if moveMaxStep ent < manhattan ent.pos target then .error "move too far"
      else if cellOccupied s target false false then .error "cell occupied"
      else
        let s := setEntity s actor { ent with pos := target }
        let s := tryPickupResources s actor
        let s := tryPickupLoot s actor
        .ok (s, { consumeTurn := true })

/-- The trajectory validity computed by `resolveShoot` per weapon class
(`ok` in move.js lines 151–163). -/
def shootOK (s : GameState) (rec : Recipe) (posA tgt : Cell) : Prop :=
  if rec.weaponClass = "straight" then
    hasStraightLine posA tgt ∧
      (rec.shootsOverWalls = true ∨ ¬ wallBlocksStraight s posA tgt)
  else if rec.weaponClass = "diag" then hasDiagonalLine posA tgt
  else if rec.weaponClass = "lob" then True
  else if rec.weaponClass = "arc" then
    2 ≤ manhattan posA tgt ∧ manhattan posA tgt ≤ rec.range
  else if rec.weaponClass = "melee" then manhattan posA tgt = 1
  else False

instance (s : GameState) (rec : Recipe) (posA tgt : Cell) :
    Decidable (shootOK s rec posA tgt) := by
  unfold shootOK; infer_instance

/-- The winner object recorded on a KO (move.js lines 174–176). -/
def winnerFor (s : GameState) (actor : String) : Winner :=
  if actor = "player" then
    { side := none,
      userId := ((s.players.get? 0).map PlayerSlot.userId).getD none,
      handle := ((s.players.get? 0).map PlayerSlot.handle).getD "player",
      isAI := false }
  else { side := none, userId := none, handle := "AI", isAI := true }

/-- `resolveShoot(db, active, actor, params)` (move.js): equip, bounds and
range checks, per-class trajectory validation, clamped damage on a hit,
and the KO transition recording the winner. -/
def resolveShoot (cat : Catalog) (s : GameState) (actor : String) (p : Params) :
    Except String (GameState × ResolveOut) :=
  let ent := getEntity s actor
  let opp := getOpponent s actor
  match p.weaponKey with
  | none => .error "weaponKey required"
  | some weaponKey =>
    match p.target with
    | none => .error "target required"
    | some target =>
      if ¬ (weaponKey ∈ ent.weapons) then .error "weapon not equipped"
      else if ¬ inBounds s.gridW s.gridH target then .error "target is out of bounds"
      else
        match loadRecipe cat weaponKey "weapon" with
        | .error e => .error e
        | .ok rec =>
          let dist := manhattan ent.pos target
          if dist < 1 ∨ rec.range < dist then .error "target out of range"
          else if _h : shootOK s rec ent.pos target then
            let opp' := if opp.pos = target
              then { opp with hp := clamp (opp.hp - rec.damage) 0 100 } else opp
            if opp'.hp ≤ 0 then
              .ok ({ setOpponent s actor opp' with
                      status := "ended", winner := some (winnerFor s actor) },
                   { consumeTurn := true, ended := true,
                     hit := decide (opp.pos = target),
                     damage := if opp.pos = target then rec.damage else 0 })
            else
              .ok (setOpponent s actor opp',
                   { consumeTurn := true, ended := false,
                     hit := decide (opp.pos = target),
                     damage := if opp.pos = target then rec.damage else 0 })
          else .error "no valid trajectory"

/-- `resolveCraftWeapon(db, active, actor, params)` (move.js): free
action, pay costs, award the weapon key. -/
def resolveCraftWeapon (cat : Catalog) (s : GameState) (actor : String) (p : Params) :
    Except String (GameState × ResolveOut) :=
  match p.key with
  | none => .error "key required"
  | some key =>
    match loadRecipe cat key "weapon" with
    | .error e => .error e
    | .ok rec =>
      match payCostsOrThrow (getEntity s actor) rec with
      | .error e => .error e
      | .ok ent' => .ok (setEntity s actor (awardWeapon ent' key), { consumeTurn := false })

/-- `resolveCraftWall(db, active, actor, params)` (move.js): bounds, pay
costs, placement distance, occupancy, then `putWall`. -/
def resolveCraftWall (cat : Catalog) (s : GameState) (actor : String) (p : Params) :
    Except String (GameState × ResolveOut) :=
  match p.key, p.pos with
  | none, _ => .error "key and pos required"
  | _, none => .error "key and pos required"
  | some key, some pos =>
    if ¬ inBounds s.gridW s.gridH pos then .error "position is out of bounds"
    else
      match loadRecipe cat key "wall" with
      | .error e => .error e
      | .ok rec =>
        match payCostsOrThrow (getEntity s actor) rec with
        | .error e => .error e
        | .ok ent' =>
          let s := setEntity s actor ent'
          let maxD := rec.wallMaxPlaceDistance.getD 1
          if maxD < manhattan (getEntity s actor).pos pos then .error "too far to place wall"
          else if cellOccupied s pos false false then .error "cell occupied"
          else
            match putWall s pos (rec.wallHp.getD 20) with
            | .error e => .error e
            | .ok s' => .ok (s', { consumeTurn := true })

/-- Fixed consumable amounts of `resolveHeal` (move.js). -/
def healAmounts : List (String × Int) :=
  [("heal.small", 10), ("heal.medium", 20), ("heal.large", 30), ("heal.major", 50)]

/-- `resolveHeal(db, active, actor, params)` (move.js): consume a held
`heal.*` item when possible, else craft via the recipe; HP clamped to
`[0, 100]` in both modes; free action. -/
def resolveHeal (cat : Catalog) (s : GameState) (actor : String) (p : Params) :
    Except String (GameState × ResolveOut) :=
  match p.key with
  | none => .error "key required"
  | some key =>
    let ent := getEntity s actor
    let consumable :=
      if jsStartsWith key "heal." = true ∧ 0 < invGet ent.inventory key then
        (healAmounts.find? (fun q => q.1 = key)).map Prod.snd
      else none
    match consumable with
    | some amt =>
      .ok (setEntity s actor
            { ent with inventory := invSet ent.inventory key (invGet ent.inventory key - 1),
                       hp := clamp (ent.hp + amt) 0 100 },
           { consumeTurn := false })
    | none =>
      match loadRecipe cat key "healing" with
      | .error e => .error e
      | .ok rec =>
        match payCostsOrThrow ent rec with
        | .error e => .error e
        | .ok ent' =>
          .ok (setEntity s actor { ent' with hp := clamp (ent'.hp + rec.heal.getD 0) 0 100 },
               { consumeTurn := false })

/-- The resource array selected by `resolveInteract` for an interact
kind. -/
def interactArr (s : GameState) (ty : String) : List Cell :=
  if ty = "tree" then s.resources.trees
  else if ty = "stone" then s.resources.stones else s.resources.hay

/-- Write back the selected resource array in `resolveInteract`. -/
def interactSetArr (s : GameState) (ty : String) (arr' : List Cell) : GameState :=
  if ty = "tree" then { s with resources := { s.resources with trees := arr' } }
  else if ty = "stone" then { s with resources := { s.resources with stones := arr' } }
  else { s with resources := { s.resources with hay := arr' } }

/-- The inventory key credited by `resolveInteract` for an interact kind. -/
def interactInvKey (ty : String) : String :=
  if ty = "tree" then "wood" else if ty = "stone" then "stone" else "food"

/-- `resolveInteract(active, actor, params)` (move.js): gather an adjacent
resource of the requested kind. -/
def resolveInteract (s : GameState) (actor : String) (p : Params) :
    Except String (GameState × ResolveOut) :=
  match p.pos, p.itype with
  | some pos, some ty =>
    if ¬ (ty ∈ ["tree", "stone", "hay"]) then .error "invalid interact params"
    else
      let ent := getEntity s actor
      if 1 < manhattan ent.pos pos then .error "interact target too far"
      else
        if ¬ (pos ∈ interactArr s ty) then .error "no such resource at pos"
        else
          let s := interactSetArr s ty ((interactArr s ty).erase pos)
          let invKey := interactInvKey ty
          .ok (setEntity s actor
                { ent with inventory := invSet ent.inventory invKey (invGet ent.inventory invKey + 1) },
               { consumeTurn := true })
  | _, _ => .error "invalid interact params"

/-- `resolveSkipTurn()` (move.js). -/
def resolveSkipTurn : ResolveOut := { consumeTurn := true }

/-!
AI candidate enumeration and turn loop (`move.js`).  The scoring side of
the loop — A* optimal path, feature extraction, dot-product scoring and
the `Math.random()` epsilon-greedy exploration (move.js lines 585–627) —
only selects *which* enumerated candidate is resolved; it is abstracted
as a selection oracle `AiSelect`, universally quantified in every
theorem, which is exactly the spec's reading that the free-action cap is
a hard stop "regardless of how the policy scores the candidates".
-/

structure Candidate where
  ctype : String
  params : Params
deriving DecidableEq, Repr

/-- `dirs4` (move.js). -/
def dirs4 : List Cell := [(1, 0), (-1, 0), (0, 1), (0, -1)]

/-- `String.prototype.includes` (substring test). -/
def jsIncludes (s sub : String) : Bool := decide (sub.data <:+: s.data)

/-- SHOOT candidate for one owned weapon key (move.js line 521): the
recipe lookup failure is swallowed by the `catch (_) {}`. -/
def shootCandidateFor (cat : Catalog) (s : GameState) (ai opp : Entity)
    (key : String) : Option Candidate :=
  match loadRecipe cat key "weapon" with
  | .error _ => none
  | .ok rec =>
    let dist := manhattan ai.pos opp.pos
    let ok : Prop :=
      if rec.weaponClass = "straight" then
        hasStraightLine ai.pos opp.pos ∧ 1 ≤ dist ∧ dist ≤ rec.range ∧
          (rec.shootsOverWalls = true ∨ ¬ wallBlocksStraight s ai.pos opp.pos)
      else if rec.weaponClass = "diag" then
        hasDiagonalLine ai.pos opp.pos ∧ 1 ≤ dist ∧ dist ≤ rec.range
      else if rec.weaponClass = "lob" then 1 ≤ dist ∧ dist ≤ rec.range
      else if rec.weaponClass = "arc" then 2 ≤ dist ∧ dist ≤ rec.range
      else if rec.weaponClass = "melee" then dist = 1
      else False
    if ok then some ⟨"SHOOT", { weaponKey := some key, target := some opp.pos }⟩
    else none

/-- `enumerateAiCandidates(db, active, ai, opp)` (move.js): SHOOT per
valid weapon, MOVE to free 4-neighbours, HEAL below the threshold,
CRAFT_WALL under threat, CRAFT_WEAPON when no ranged weapon, INTERACT on
adjacent resources when materials are low — in source order. -/
def enumerateAiCandidates (cat : Catalog) (s : GameState) : List Candidate :=
  let ai := s.ai
  let opp := s.player
  let shoots :=
    if inBounds s.gridW s.gridH opp.pos then
      ai.weapons.filterMap (shootCandidateFor cat s ai opp)
    else []
  let moves := dirs4.filterMap (fun d =>
    let t : Cell := (ai.pos.1 + d.1, ai.pos.2 + d.2)
    if inBounds s.gridW s.gridH t ∧ ¬ cellOccupied s t false true then
      some ⟨"MOVE", { toCell := some t }⟩
    else none)
  let heals :=
    match ["heal.major", "heal.large", "heal.medium", "heal.small"].find?
        (fun k => 0 < invGet ai.inventory k) with
    | some k => if ai.hp ≤ 70 then [(⟨"HEAL", { key := some k }⟩ : Candidate)] else []
    | none => []
  let craftWalls :=
    if hasStraightLine ai.pos opp.pos ∧ ¬ wallBlocksStraight s ai.pos opp.pos ∧
        manhattan ai.pos opp.pos ≤ 6 then
      match cat.find? (fun r => r.key = "wall.wood.short" && r.enabled) with
      | some rec =>
        if rec.costWood ≤ invGet ai.inventory "wood" ∧
            rec.costStone ≤ invGet ai.inventory "stone" then
          let step : Cell := ((opp.pos.1 - ai.pos.1).sign, (opp.pos.2 - ai.pos.2).sign)
          let cand : Cell := (ai.pos.1 + step.1, ai.pos.2 + step.2)
          if manhattan ai.pos cand ≤ rec.wallMaxPlaceDistance.getD 1 ∧
              inBounds s.gridW s.gridH cand ∧ ¬ cellOccupied s cand false false then
            [(⟨"CRAFT_WALL", { key := some "wall.wood.short", pos := some cand }⟩ : Candidate)]
          else []
        else []
      | none => []
    else []
  let craftWeapons :=
    if ai.weapons.any (fun k => ¬ jsIncludes k ".melee.") then []
    else
      match cat.find? (fun r => r.key = "weapon.straight.t1" && r.enabled) with
      | some rec =>
        if rec.costWood ≤ invGet ai.inventory "wood" ∧
            rec.costStone ≤ invGet ai.inventory "stone" then
          [(⟨"CRAFT_WEAPON", { key := some "weapon.straight.t1" }⟩ : Candidate)]
        else []
      | none => []
  let interacts :=
    if invGet ai.inventory "wood" + invGet ai.inventory "stone" < 3 then
      dirs4.flatMap (fun d =>
        let q : Cell := (ai.pos.1 + d.1, ai.pos.2 + d.2)
        if inBounds s.gridW s.gridH q then
          (["tree", "stone", "hay"].filterMap (fun t =>
            let arr := if t = "tree" then s.resources.trees
                       else if t = "stone" then s.resources.stones else s.resources.hay
            if q ∈ arr then some (⟨"INTERACT", { pos := some q, itype := some t }⟩ : Candidate)
            else none))
        else [])
    else []
  shoots ++ moves ++ heals ++ craftWalls ++ craftWeapons ++ interacts

/-- Selection oracle standing for the scoring/epsilon-greedy block. -/
abbrev AiSelect := GameState → List Candidate → Candidate

/-- The `switch (best.type)` of the AI loop (move.js lines 630–638).
Note the source bug at line 636: the AI's INTERACT branch calls
`resolveInteract(db, next, "ai", best.params)` — one argument too many —
so the resolver receives the database handle as the game state and
throws a `TypeError` dereferencing `db.entities.ai`; the route's `catch`
turns that into a 400 with no state change. -/
def dispatchAiAction (cat : Catalog) (s : GameState) (cand : Candidate) :
    Except String (GameState × ResolveOut) :=
  if cand.ctype = "MOVE" then resolveMove s "ai" cand.params
  else if cand.ctype = "SHOOT" then resolveShoot cat s "ai" cand.params
  else if cand.ctype = "CRAFT_WALL" then resolveCraftWall cat s "ai" cand.params
  else if cand.ctype = "CRAFT_WEAPON" then resolveCraftWeapon cat s "ai" cand.params
  else if cand.ctype = "HEAL" then resolveHeal cat s "ai" cand.params
  else if cand.ctype = "INTERACT" then
    .error "TypeError: Cannot read properties of undefined (reading 'ai')"
  else .error ("AI chose unknown action " ++ cand.ctype)

/-- `{took, result}` of `aiTakeTurn`; `result = none` models the missing
`result` property of the early `{took: false}` return. -/
structure AiOut where
  took : Bool
  result : Option ResolveOut
deriving DecidableEq, Repr

/-- The `while` loop of `aiTakeTurn` (move.js lines 576–655), recursing on
the remaining free-action budget `maxFreeActions`: resolve the selected
candidate, append it to the action history, stop on a game-ending or
turn-consuming result, and otherwise decrement the budget. -/
def aiTakeTurnLoop (cat : Catalog) (sel : AiSelect) : GameState → Nat →
    Except String (GameState × AiOut)
  | s, 0 => .ok (s, ⟨true, some { consumeTurn := true }⟩)
  | s, Nat.succ n =>
    if s.currentActor = "ai" ∧ s.status = "active" then
      let cands := enumerateAiCandidates cat s
      if cands.isEmpty then .ok (s, ⟨false, some { consumeTurn := true }⟩)
      else
        match dispatchAiAction cat s (sel s cands) with
        | .error e => .error e
        | .ok (s', r) =>
          let s'' := { s' with actionHistory := s'.actionHistory ++ [⟨"ai", (sel s cands).ctype⟩] }
          if r.ended then .ok (s'', ⟨true, some r⟩)
          else if r.consumeTurn then .ok (s'', ⟨true, some r⟩)
          else aiTakeTurnLoop cat sel s'' n
    else .ok (s, ⟨true, some { consumeTurn := true }⟩)

/-- `aiTakeTurn(db, next)` (move.js): early exit when the game is not
active, else the loop with a free-action budget of 2. -/
def aiTakeTurn (cat : Catalog) (sel : AiSelect) (s : GameState) :
    Except String (GameState × AiOut) :=
  if s.status ≠ "active" then .ok (s, ⟨false, none⟩)
  else aiTakeTurnLoop cat sel s 2

/-!
Match store and the `/update`, `/matches/:id/resign` endpoints.  The
store holds the single match addressed by the request (`matchId` is its
document id) plus the `historical_game` collection.  The ELO update and
the AI-policy learning write to collections (`users`, `ai_policy`) that
the game state never reads back; they are omitted.
-/

structure HistPlayer where
  userId : Option String
  handle : String
  isAI : Bool
  finalHP : Int
  actionsHistogram : List (String × Nat)
deriving DecidableEq, Repr

structure ResignSummary where
  turns : Nat
  winner : Option Winner
  reason : Option String
deriving DecidableEq, Repr

/-- Historical documents: the shape inserted by `archiveGame` (move.js),
the shape inserted by `/end_game` via `buildHistoricalFromActive`
(activegame.js lines 471–549: `players` is `active.players` copied
verbatim, with **no** per-player `actionsHistogram`), and the resign
summary shape — restricted to the fields the claims mention. -/
inductive HistDoc where
  | koArchive (matchKey : String) (durationTurns : Nat) (players : List HistPlayer)
      (winner : Option Winner) (outcome : String)
  | endGameArchive (matchKey : String) (players : List PlayerSlot) (summary : ResignSummary)
  | endArchive (matchKey : String) (summary : ResignSummary)
deriving DecidableEq, Repr

structure Db where
  matchId : String
  activeGame : Option GameState
  historical : List HistDoc
deriving DecidableEq, Repr

/-- One `acc[a.action] = (acc[a.action] || 0) + 1` step of the histogram
reducers in `archiveGame`. -/
def bumpCount (acc : List (String × Nat)) (k : String) : List (String × Nat) :=
  invSet acc k (invGet acc k + 1)

/-- The per-actor histogram built by `archiveGame` (move.js lines
377–384): filter the action history by actor, then count by type. -/
def actionsHistogramFor (hist : List HistEntry) (who : String) : List (String × Nat) :=
  (hist.filter (fun e => e.actor = who)).foldl (fun acc e => bumpCount acc e.action) []

/-- The `historicalDoc` built by `archiveGame` (move.js lines 386–413). -/
def archiveGameDoc (g : GameState) (matchKey : String) : HistDoc :=
  .koArchive matchKey g.turnIndex
    [{ userId := g.player.userId, handle := g.player.handle, isAI := false,
       finalHP := g.player.hp, actionsHistogram := actionsHistogramFor g.actionHistory "player" },
     { userId := none, handle := "AI", isAI := true,
       finalHP := g.ai.hp, actionsHistogram := actionsHistogramFor g.actionHistory "ai" }]
    g.winner (if g.winner.isSome then "KO" else "Draw")

/-- `archiveGame(db, finishedGame)` (move.js): insert the historical
document, delete the active document. -/
def archiveGame (db : Db) (g : GameState) : Db :=
  { db with historical := db.historical ++ [archiveGameDoc g db.matchId],
            activeGame := none }

/-- `buildHistoricalFromActive(active, endedReason, overrideWinner)`
(activegame.js lines 471–549), restricted to the fields the claims
mention: the participants are `active.players` **verbatim** (no
`actionsHistogram` is computed), and the summary carries the turn count,
the winner (override, else the active one, else the `player_win` /
`ai_win` reconstruction) and the end reason. -/
def buildHistoricalFromActive (active : GameState) (matchKey : String)
    (reqReason : Option String) (overrideWinner : Option Winner) : HistDoc :=
  let endReason := reqReason.getD
    (if active.status = "ended" then active.reason.getD "end_game" else "end_game")
  let histWinner : Option Winner :=
    match overrideWinner, active.winner with
    | some w, _ => some w
    | none, some w => some w
    | none, none =>
      if endReason = "player_win" then
        some { side := some "player",
               userId := ((active.players.get? 0).map PlayerSlot.userId).getD none,
               handle := ((active.players.get? 0).map PlayerSlot.handle).getD "player",
               isAI := false }
      else if endReason = "ai_win" then
        some { side := some "ai", userId := none, handle := "AI", isAI := true }
      else none
  .endGameArchive matchKey active.players ⟨active.turnIndex, histWinner, some endReason⟩

/-- The `/end_game` route (activegame.js): load the active match (404 as
`none` when absent), build the historical document from the snapshot,
insert it and delete the active document. -/
def endGameEndpoint (db : Db) (reqReason : Option String)
    (overrideWinner : Option Winner) : Option HistDoc × Db :=
  match db.activeGame with
  | none => (none, db)
  | some active =>
    let doc := buildHistoricalFromActive active db.matchId reqReason overrideWinner
    (some doc, { db with historical := db.historical ++ [doc], activeGame := none })

structure UpdateReq where
  actor : String
  actionType : String
  params : Params
  snapshotVersion : Option Nat
deriving DecidableEq, Repr

inductive UpdateResp where
  | badRequest (msg : String)
  | notFound (msg : String)
  | conflict (msg : String)
  | okSnapshot (snap : GameState)
deriving DecidableEq, Repr

/-- `isTurnConsuming` (move.js line 685). -/
def isTurnConsuming (t : String) : Prop :=
  t ∈ ["MOVE", "SHOOT", "CRAFT_WALL", "INTERACT", "SKIP_TURN"]

instance (t : String) : Decidable (isTurnConsuming t) := by
  unfold isTurnConsuming; infer_instance

/-- The action types with a `switch` case in the `/update` route; any
other type hits the `default` 400 branch. -/
def knownAction (t : String) : Prop :=
  t ∈ ["MOVE", "SHOOT", "CRAFT_WEAPON", "CRAFT_WALL", "HEAL", "INTERACT", "SKIP_TURN"]

instance (t : String) : Decidable (knownAction t) := by
  unfold knownAction; infer_instance

/-- The `switch (action.type)` of the `/update` route (lines 695–703);
the player INTERACT branch passes the correct arguments. -/
def dispatchPlayerAction (cat : Catalog) (s : GameState) (actor t : String) (p : Params) :
    Except String (GameState × ResolveOut) :=
  if t = "MOVE" then resolveMove s actor p
  else if t = "SHOOT" then resolveShoot cat s actor p
  else if t = "CRAFT_WEAPON" then resolveCraftWeapon cat s actor p
  else if t = "CRAFT_WALL" then resolveCraftWall cat s actor p
  else if t = "HEAL" then resolveHeal cat s actor p
  else if t = "INTERACT" then resolveInteract s actor p
  else if t = "SKIP_TURN" then .ok (s, resolveSkipTurn)
  else .error ("unknown action.type: " ++ t)

/-- The `$set` document of the final `updateOne` (lines 747–760): only
these fields are written; the stored document keeps everything else. -/
def applyUpdateSet (stored next : GameState) : GameState :=
  { stored with
    player := next.player, ai := next.ai, walls := next.walls,
    resources := next.resources, loot := next.loot, turnIndex := next.turnIndex,
    currentActor := next.currentActor, status := next.status, winner := next.winner,
    version := next.version, actionHistory := next.actionHistory }

/-- The filter of the final `updateOne` (lines 744–745): always the id;
the version predicate `version == active.version` is added **only when
the request supplied a numeric `snapshotVersion`**. -/
def casMatches (snapshotVersion : Option Nat) (loadedVersion : Nat) (stored : GameState) : Prop :=
  match snapshotVersion with
  | some _ => stored.version = loadedVersion
  | none => True

instance (sv : Option Nat) (lv : Nat) (st : GameState) : Decidable (casMatches sv lv st) := by
  unfold casMatches; cases sv <;> infer_instance

/-- `col.updateOne(updateFilter, {$set: ...})` against the store as it is
at write time; returns the store after the write and `matchedCount > 0`. -/
def persistUpdate (db : Db) (loadedVersion : Nat) (snapshotVersion : Option Nat)
    (next : GameState) : Db × Bool :=
  match db.activeGame with
  | none => (db, false)
  | some stored =>
    if casMatches snapshotVersion loadedVersion stored then
      ({ db with activeGame := some (applyUpdateSet stored next) }, true)
    else (db, false)

/-- The successful tail of the `/update` route (lines 741–764): bump the
version by 1, run the conditional-CAS `updateOne`, answer the snapshot
or a 409 on a missed write. -/
def persistPhase (db : Db) (loadedVersion : Nat) (sv : Option Nat) (next : GameState) :
    UpdateResp × Db :=
  let next' := { next with version := next.version + 1 }
  let pu := persistUpdate db loadedVersion sv next'
  if pu.2 then (.okSnapshot next', pu.1)
  else (.conflict "concurrent update; please reload snapshot", pu.1)

/-- The hand-back of the turn after the AI turn (lines 727–731). -/
def aiTurnFlip (aiOut : AiOut) (next₃ : GameState) : GameState :=
  if aiOut.took ∧ aiOut.result.any (fun r => r.consumeTurn) ∧ next₃.status = "active" then
    { next₃ with turnIndex := next₃.turnIndex + 1, currentActor := "player" }
  else next₃

/-- The AI-turn section of the `/update` route (lines 706–739): when the
working copy hands the turn to the AI, run `aiTakeTurn`, archive a
terminal AI result, else flip the turn back and persist. -/
def aiPhase (cat : Catalog) (sel : AiSelect) (db : Db) (active : GameState)
    (req : UpdateReq) (next₂ : GameState) : UpdateResp × Db :=
  if next₂.status = "active" ∧ next₂.currentActor = "ai" then
    match aiTakeTurn cat sel next₂ with
    | .error msg => (.badRequest msg, db)
    | .ok (next₃, aiOut) =>
      if aiOut.result.any (fun r => r.ended) then
        (.okSnapshot { next₃ with status := "ended" }, archiveGame db next₃)
      else
        persistPhase db active.version req.snapshotVersion (aiTurnFlip aiOut next₃)
  else persistPhase db active.version req.snapshotVersion next₂

/-- The turn hand-over after a consuming player action (lines 706–711). -/
def turnFlip (req : UpdateReq) (pr : ResolveOut) (next₁ : GameState) : GameState :=
  if pr.consumeTurn ∧ next₁.status = "active" then
    { next₁ with
      turnIndex := next₁.turnIndex + 1,
      currentActor := if req.actor = "player" then "ai" else "player" }
  else next₁

/-- The `/update` route (move.js lines 666–773) against an atomic view of
the store (no interleaving between the `findOne` and the `updateOne`):
load with optional version filter, reject ended matches and wrong turns,
resolve the player action on the working copy, run the AI turn, archive
on a terminal result, else bump the version and persist. -/
def updateEndpoint (cat : Catalog) (sel : AiSelect) (db : Db) (req : UpdateReq) :
    UpdateResp × Db :=
  if req.actor = "" ∨ req.actionType = "" then
    (.badRequest "matchId, actor, and action.type are required", db)
  else
    match db.activeGame with
    | none => (.notFound "active match not found or version mismatch", db)
    | some active =>
      if req.snapshotVersion.any (fun v => v != active.version) then
        (.notFound "active match not found or version mismatch", db)
      else if active.status ≠ "active" then (.conflict "match has already ended", db)
      else if isTurnConsuming req.actionType ∧ active.currentActor ≠ req.actor then
        (.conflict ("not " ++ req.actor ++ "'s turn"), db)
      else if ¬ knownAction req.actionType then
        (.badRequest ("unknown action.type: " ++ req.actionType), db)
      else
        match dispatchPlayerAction cat active req.actor req.actionType req.params with
        | .error msg => (.badRequest msg, db)
        | .ok (next₀, pr) =>
          let next₁ := { next₀ with
            actionHistory := next₀.actionHistory ++ [⟨req.actor, req.actionType⟩] }
          if pr.ended then
            (.okSnapshot { next₁ with status := "ended" }, archiveGame db next₁)
          else
            aiPhase cat sel db active req (turnFlip req pr next₁)

structure ResignReq where
  userId : Option String
  side : Option String
deriving DecidableEq, Repr

inductive ResignResp where
  | notFound
  | forbidden
  | alreadyEnded (summary : ResignSummary)
  | resigned (summary : ResignSummary)
deriving DecidableEq, Repr

/-- The resigning side of a resign request (`side === "ai" ? "ai" :
"player"`). -/
def resignSide (req : ResignReq) : String :=
  if req.side = some "ai" then "ai" else "player"

/-- The winner recorded by a resign: the side opposite the resigning
side. -/
def resignWinner (active : GameState) (side : String) : Winner :=
  if side = "player" then { side := some "ai", userId := none, handle := "AI", isAI := true }
  else { side := some "player",
         userId := ((active.players.get? 0).map PlayerSlot.userId).getD none,
         handle := ((active.players.get? 0).map PlayerSlot.handle).getD "player",
         isAI := false }

/-- The `/matches/:id/resign` route (activegame.js lines 619–742): load,
participant check for a player resign, 200 no-op with the existing
summary when already ended, else archive with the opposite winner and
reason `"resign"` (insert historical, delete active; the transactional
and two-step fall-back paths write the same documents). -/
def resignEndpoint (db : Db) (req : ResignReq) : ResignResp × Db :=
  match db.activeGame with
  | none => (.notFound, db)
  | some active =>
    if resignSide req = "player" ∧
        ¬ (∃ p ∈ active.players, p.userId.getD "" = req.userId.getD "") then
      (.forbidden, db)
    else if active.status = "ended" then
      (.alreadyEnded ⟨active.turnIndex, active.winner, some (active.reason.getD "ended")⟩, db)
    else
      let w : Winner := resignWinner active (resignSide req)
      let summary : ResignSummary := ⟨active.turnIndex, some w, some "resign"⟩
      (.resigned summary,
       { db with historical := db.historical ++ [.endArchive db.matchId summary],
                 activeGame := none })

/-!
Derived observers and concrete scenario inputs used by the theorems
below.
-/

/-- The 400/404/409 responses of the `/update` route. -/
def isRejection : UpdateResp → Prop
  | .badRequest _ => True
  | .notFound _ => True
  | .conflict _ => True
  | .okSnapshot _ => False

instance (r : UpdateResp) : Decidable (isRejection r) := by
  unfold isRejection; cases r <;> infer_instance

/-- The `HistPlayer` entries (the player records carrying an
`actionsHistogram`) of a historical document.  Only the KO archive of
move.js has any: the `/end_game` document stores the raw player slots
verbatim and no histogram, and the resign summary stores none either. -/
def HistDoc.playersOf : HistDoc → List HistPlayer
  | .koArchive _ _ ps _ _ => ps
  | .endGameArchive _ _ _ => []
  | .endArchive _ _ => []

/-- Total count of an actions histogram. -/
def histTotal (m : List (String × Nat)) : Nat := (m.map Prod.snd).sum

/-- Every key `placeLoot` can emit at `elo = 1200`: heals and grade-1
weapons only. -/
def allowedKeys1200 : List String :=
  ["heal.small", "heal.medium", "heal.large", "heal.major",
   "weapon.straight.t1", "weapon.diag.t1", "weapon.arc.t1", "weapon.lob.t1",
   "weapon.melee.t1"]

/-- Occupancy invariant: the two entities and all walls sit on pairwise
distinct cells. -/
def OccupancyOK (s : GameState) : Prop :=
  s.player.pos ≠ s.ai.pos ∧
  (∀ w ∈ s.walls, w.pos ≠ s.player.pos ∧ w.pos ≠ s.ai.pos) ∧
  s.walls.Pairwise (fun a b => a.pos ≠ b.pos)

instance (s : GameState) : Decidable (OccupancyOK s) := by
  unfold OccupancyOK; infer_instance

/-- A 3×3 scenario player entity. -/
def egPlayer : Entity :=
  { pos := (0, 0), hp := 100, inventory := [("wood", 0), ("stone", 0), ("food", 0)],
    weapons := [], effectsMove2 := false, userId := some "u1", handle := "alice" }

/-- A 3×3 scenario AI entity. -/
def egAi : Entity :=
  { pos := (2, 2), hp := 100, inventory := [("wood", 0), ("stone", 0), ("food", 0)],
    weapons := [], effectsMove2 := false, userId := none, handle := "AI" }

/-- A minimal active match on a 3×3 grid, version 1. -/
def egState : GameState :=
  { gridW := 3, gridH := 3, elo := 1200, player := egPlayer, ai := egAi,
    walls := [], resources := ⟨[], [], []⟩, loot := [], turnIndex := 0,
    currentActor := "player", status := "active", winner := none, reason := none,
    players := [⟨"A", "player", some "u1", "alice"⟩, ⟨"B", "ai", none, "AI"⟩],
    actionHistory := [], version := 1 }

/-- Selection oracle that always picks the first candidate. -/
def egSel : AiSelect := fun _ cands => cands.headD ⟨"SKIP_TURN", {}⟩

/-- Store holding the minimal match. -/
def egDb : Db := { matchId := "m1", activeGame := some egState, historical := [] }

/-- A zero-cost straight tier-1 weapon recipe. -/
def t1Recipe : Recipe :=
  { key := "weapon.straight.t1", kind := "weapon", enabled := true,
    costWood := 0, costStone := 0, costFood := 0,
    weaponClass := "straight", range := 8, shootsOverWalls := false, damage := 10 }

/-- A high-damage straight tier-5 weapon recipe (spec scenario 2 shape). -/
def t5Recipe : Recipe :=
  { key := "weapon.straight.t5", kind := "weapon", enabled := true,
    costWood := 0, costStone := 0, costFood := 0,
    weaponClass := "straight", range := 8, shootsOverWalls := false, damage := 50 }

def egCatalog : Catalog := [t1Recipe, t5Recipe]

/-- Scenario for the SHOOT theorems: player at `(2,2)` with the tier-5
straight weapon, AI at `(2,0)` with 80 HP. -/
def c3S : GameState :=
  { egState with
    player := { egPlayer with pos := (2, 2), weapons := ["weapon.straight.t5"] },
    ai := { egAi with pos := (2, 0), hp := 80 } }

/-- State after the witness shot: AI HP clamped from 80 to 30. -/
def c3Sx : GameState := { c3S with ai := { egAi with pos := (2, 0), hp := 30 } }

/-- Snapshot answered by the `/update` CRAFT_WEAPON witness scenario:
weapon awarded, one history entry, version bumped to 2. -/
def c1Snap : GameState :=
  { egState with
    player := { egPlayer with weapons := ["weapon.straight.t1"] },
    actionHistory := [⟨"player", "CRAFT_WEAPON"⟩],
    version := 2 }

/-!
Theorems.  Helper lemmas come first; the claim theorems carry the claim
ids in their doc comments.
-/

theorem jsFloorScale_lt {k n : Nat} (hk : k < M32) (hn : 0 < n) : jsFloorScale k n < n := by
  unfold jsFloorScale
  refine Nat.div_lt_of_lt_mul ?_
  exact (Nat.mul_lt_mul_right hn).mpr hk

theorem jsChoice_mem {rng : Nat → Nat} {c : Nat} {a : List Cell} (hk : rng c < M32)
    (ha : a ≠ []) : jsChoice rng c a ∈ a := by
  unfold jsChoice
  have hlen : 0 < a.length := List.length_pos.mpr ha
  have hidx := jsFloorScale_lt hk hlen
  rw [List.get?_eq_get hidx]
  exact List.get_mem _ _ _

theorem weightedChoiceAux_mem {α : Type} : ∀ (r : QF) (l : List (α × QF)) (v : α),
    weightedChoiceAux r l = some v → v ∈ l.map Prod.fst := by
  intro r l
  induction l generalizing r with
  | nil => intro v h; simp [weightedChoiceAux] at h
  | cons hd tl ih =>
    obtain ⟨x, w⟩ := hd
    intro v h
    rw [weightedChoiceAux] at h
    split at h
    · simp at h; simp [h]
    · simpa using Or.inr (ih _ _ h)

theorem weightedChoice_mem {α : Type} (q : QF) (l : List (α × QF)) (dflt : α) (h : l ≠ []) :
    weightedChoice q l dflt ∈ l.map Prod.fst := by
  simp only [weightedChoice]
  cases haux : weightedChoiceAux (q.mul ((l.map Prod.snd).foldl QF.add ⟨0, 1⟩)) l with
  | some v =>
    exact weightedChoiceAux_mem _ _ _ haux
  | none =>
    show (Option.map Prod.fst l.getLast?).getD dflt ∈ l.map Prod.fst
    rw [List.getLast?_eq_getLast l h]
    exact List.mem_map_of_mem Prod.fst (List.getLast_mem h)

theorem weightedChoiceAux_single {α : Type} (r : QF) (v : α) (w : QF) :
    weightedChoiceAux r [(v, w)] = some v ∨ weightedChoiceAux r [(v, w)] = none := by
  rw [weightedChoiceAux]
  split
  · exact Or.inl rfl
  · exact Or.inr (by rw [weightedChoiceAux])

theorem weightedChoice_singleton {α : Type} (q : QF) (v : α) (w : QF) (dflt : α) :
    weightedChoice q [(v, w)] dflt = v := by
  rcases weightedChoiceAux_single (q.mul (([(v, w)].map Prod.snd).foldl QF.add ⟨0, 1⟩)) v w
    with h | h <;> (simp only [weightedChoice]; rw [h]; try rfl)

theorem bnpAux_sep : ∀ (cells placed : List Cell) (count minSep : Nat) (forbidden : List Cell),
    placed.Pairwise (fun a b => minSep ≤ manhattan a b) →
    (∀ p ∈ placed, p ∉ forbidden) →
    (bnpAux count minSep forbidden cells placed).Pairwise (fun a b => minSep ≤ manhattan a b) ∧
      ∀ p ∈ bnpAux count minSep forbidden cells placed, p ∉ forbidden := by
  intro cells
  induction cells with
  | nil => intro placed count minSep forbidden hp hf; rw [bnpAux]; exact ⟨hp, hf⟩
  | cons c rest ih =>
    intro placed count minSep forbidden hp hf
    rw [bnpAux]
    split
    · exact ih placed count minSep forbidden hp hf
    · rename_i hcf
      split
      · rename_i hsep
        have hp' : (placed ++ [c]).Pairwise (fun a b => minSep ≤ manhattan a b) := by
          rw [List.pairwise_append]
          exact ⟨hp, List.pairwise_singleton _ _, by
            intro a ha b hb
            rw [List.mem_singleton] at hb
            subst hb
            exact hsep a ha⟩
        have hf' : ∀ p ∈ placed ++ [c], p ∉ forbidden := by
          intro p hpm
          rcases List.mem_append.mp hpm with hin | hin
          · exact hf p hin
          · rw [List.mem_singleton] at hin; subst hin; exact hcf
        split
        · exact ⟨hp', hf'⟩
        · exact ih _ count minSep forbidden hp' hf'
      · exact ih placed count minSep forbidden hp hf

theorem blueNoisePlace_sep (rng : Nat → Nat) (cur w h count minSep : Nat)
    (forbidden : List Cell) :
    (blueNoisePlace rng cur w h count minSep forbidden).Pairwise
      (fun a b => minSep ≤ manhattan a b) ∧
    ∀ p ∈ blueNoisePlace rng cur w h count minSep forbidden, p ∉ forbidden :=
  bnpAux_sep _ [] count minSep forbidden (List.Pairwise.nil) (by simp)

/-- C5 (counterexample): in the world generated from seed `"abc"` on the
default 16×16 grid at `elo = 1200`, the stone at `(1,4)` is at Manhattan
distance 1 from the tree at `(1,3)`, so the placer accepted a stone
closer than its minimum separation 2 to a previously placed resource
cell of another kind — `blueNoisePlace` enforces the separation only
against cells placed in the same call, and forbids prior kinds' cells
only at exact overlap. -/
theorem c5_cross_kind_counterexample :
    (1, 4) ∈ (genResources "abc" 16 16 1200).stones ∧
    (1, 3) ∈ (genResources "abc" 16 16 1200).trees ∧
    manhattan (1, 4) (1, 3) = 1 := by
  refine ⟨by decide, by decide, by decide⟩

/-- C5 (amended): for every resource kind, `seedResources` keeps placed
cells of the *same* kind at least that kind's minimum separation apart
(1 for trees and hay, 2 for stones), and rejects cells exactly occupied
by the spawns or by prior kinds' placements; cross-kind cells are
excluded only at exact overlap, not by distance. -/
theorem c5_same_kind_separation (rng : Nat → Nat) (c w h : Nat) (P A : Cell) :
    ((seedResources rng c w h P A).trees.Pairwise (fun a b => 1 ≤ manhattan a b) ∧
      ∀ t ∈ (seedResources rng c w h P A).trees, t ∉ [P, A]) ∧
    ((seedResources rng c w h P A).stones.Pairwise (fun a b => 2 ≤ manhattan a b) ∧
      ∀ t ∈ (seedResources rng c w h P A).stones,
        t ∉ [P, A] ++ (seedResources rng c w h P A).trees) ∧
    ((seedResources rng c w h P A).hay.Pairwise (fun a b => 1 ≤ manhattan a b) ∧
      ∀ t ∈ (seedResources rng c w h P A).hay,
        t ∉ [P, A] ++ (seedResources rng c w h P A).trees ++
          (seedResources rng c w h P A).stones) := by
  show ((seedTrees rng c w h P A).Pairwise _ ∧ _) ∧ ((seedStones rng c w h P A).Pairwise _ ∧ _) ∧
    (seedHay rng c w h P A).Pairwise _ ∧ _
  refine ⟨⟨?_, ?_⟩, ⟨?_, ?_⟩, ?_, ?_⟩
  · exact (blueNoisePlace_sep rng c w h (computeResourceTotals w h).1 1 [P, A]).1
  · exact (blueNoisePlace_sep rng c w h (computeResourceTotals w h).1 1 [P, A]).2
  · exact (blueNoisePlace_sep rng (c + (w * h - 1)) w h (computeResourceTotals w h).2.1 2 _).1
  · exact (blueNoisePlace_sep rng (c + (w * h - 1)) w h (computeResourceTotals w h).2.1 2 _).2
  · exact (blueNoisePlace_sep rng (c + 2 * (w * h - 1)) w h (computeResourceTotals w h).2.2 1 _).1
  · exact (blueNoisePlace_sep rng (c + 2 * (w * h - 1)) w h (computeResourceTotals w h).2.2 1 _).2

/-- C5 (witness): concrete instance of the amended theorem — in the 5×5
world placed with the constant-zero stream, the stone `(1,0)` does not
coincide with a spawn or a tree. -/
theorem c5_separation_witness :
    (1, 2) ∈ (seedResources (fun _ => 0) 0 5 5 (1, 1) (3, 3)).stones ∧
    (1, 2) ∉ ([((1 : Int), (1 : Int)), (3, 3)] ++
      (seedResources (fun _ => 0) 0 5 5 (1, 1) (3, 3)).trees) :=
  ⟨by decide, (c5_same_kind_separation (fun _ => 0) 0 5 5 (1, 1) (3, 3)).2.1.2 (1, 2) (by decide)⟩

theorem pickSpawn_ai_eq (rng : Nat → Nat) (c w h : Nat) (elo : Int) :
    (pickSpawnPositions rng c w h elo).ai =
      (if ((sortedCandidates w h).filter
            (fun A => decide (aiSpawnPred (pickSpawnPositions rng c w h elo).player A))).isEmpty
       then jsChoice rng (c + 1) (sortedCandidates w h)
       else jsChoice rng (c + 1) ((sortedCandidates w h).filter
            (fun A => decide (aiSpawnPred (pickSpawnPositions rng c w h elo).player A)))) := rfl

theorem pickSpawn_ok_eq (rng : Nat → Nat) (c w h : Nat) (elo : Int) :
    (pickSpawnPositions rng c w h elo).colSeparationOK =
      decide (10 ≤ ((pickSpawnPositions rng c w h elo).ai.1 -
        (pickSpawnPositions rng c w h elo).player.1).natAbs) := rfl

/-- C7: whenever some interior candidate satisfies the AI-spawn
constraint relative to the chosen player spawn, the chosen AI spawn
satisfies it too (column separation at least 10 and a different row);
and `constraints.columnSeparationOK` is `true` exactly when the chosen
spawns satisfy the column-separation constraint. -/
theorem c7_spawn_constraint :
    (∀ (rng : Nat → Nat), (∀ i, rng i < M32) → ∀ (c w h : Nat) (elo : Int),
      (∃ cand ∈ interiorCells w h, aiSpawnPred (pickSpawnPositions rng c w h elo).player cand) →
        aiSpawnPred (pickSpawnPositions rng c w h elo).player (pickSpawnPositions rng c w h elo).ai) ∧
    (∀ (rng : Nat → Nat) (c w h : Nat) (elo : Int),
      (pickSpawnPositions rng c w h elo).colSeparationOK = true ↔
        10 ≤ ((pickSpawnPositions rng c w h elo).ai.1 -
          (pickSpawnPositions rng c w h elo).player.1).natAbs) := by
  constructor
  · rintro rng hrng c w h elo ⟨cand, hcand, hpred⟩
    have hmem : cand ∈ sortedCandidates w h := by
      unfold sortedCandidates
      exact ((List.perm_insertionSort _ _).mem_iff).mpr hcand
    have hfil : cand ∈ (sortedCandidates w h).filter
        (fun A => decide (aiSpawnPred (pickSpawnPositions rng c w h elo).player A)) :=
      List.mem_filter.mpr ⟨hmem, by simpa using hpred⟩
    have hne := List.ne_nil_of_mem hfil
    have hemp : ((sortedCandidates w h).filter
        (fun A => decide (aiSpawnPred (pickSpawnPositions rng c w h elo).player A))).isEmpty
          = false := by
      rw [List.isEmpty_eq_false]
      exact hne
    have hai := pickSpawn_ai_eq rng c w h elo
    rw [hemp] at hai
    simp only [Bool.false_eq_true, if_false] at hai
    have hmemai := jsChoice_mem (hrng (c + 1)) hne
    rw [← hai] at hmemai
    have := (List.mem_filter.mp hmemai).2
    exact of_decide_eq_true this
  · intro rng c w h elo
    rw [pickSpawn_ok_eq]
    exact decide_eq_true_iff

/-- C7 (witness): on a 25×7 grid with the constant-zero stream the chosen
spawns are column-separated by at least 10 on different rows, and the
flag is honest. -/
theorem c7_spawn_witness :
    aiSpawnPred (pickSpawnPositions (fun _ => 0) 0 25 7 1200).player
      (pickSpawnPositions (fun _ => 0) 0 25 7 1200).ai ∧
    ((pickSpawnPositions (fun _ => 0) 0 25 7 1200).colSeparationOK = true ↔
      10 ≤ ((pickSpawnPositions (fun _ => 0) 0 25 7 1200).ai.1 -
        (pickSpawnPositions (fun _ => 0) 0 25 7 1200).player.1).natAbs) :=
  ⟨c7_spawn_constraint.1 (fun _ => 0) (fun _ => Nat.pos_of_ne_zero (by decide)) 0 25 7 1200
      ⟨(1, 1), by decide, by decide⟩,
   c7_spawn_constraint.2 (fun _ => 0) 0 25 7 1200⟩

theorem makeLootTable_1200 :
    makeLootTable 1200 =
      { typeW := [("weapon", ⟨7, 10⟩), ("healing", ⟨3, 10⟩)],
        classW := [("straight", ⟨28, 100⟩), ("diag", ⟨18, 100⟩), ("arc", ⟨22, 100⟩),
                   ("lob", ⟨22, 100⟩), ("melee", ⟨10, 100⟩)],
        gradeW := [(1, ⟨1, 1⟩)] } := by decide

theorem pickLootKey_1200_mem (rng : Nat → Nat) (c : Nat) :
    (pickLootKey rng c 1200).1 ∈ allowedKeys1200 := by
  simp only [pickLootKey, makeLootTable_1200]
  split
  · have hm := weightedChoice_mem (rngQF rng (c + 1)) healsW "heal.small" (by simp [healsW])
    simp only [healsW, List.map_cons, List.map_nil, List.mem_cons, List.not_mem_nil,
      or_false] at hm
    rcases hm with h | h | h | h <;> simp_all [allowedKeys1200, healsW]
  · have hcls := weightedChoice_mem (rngQF rng (c + 1))
      [("straight", (⟨28, 100⟩ : QF)), ("diag", ⟨18, 100⟩), ("arc", ⟨22, 100⟩),
       ("lob", ⟨22, 100⟩), ("melee", ⟨10, 100⟩)] "melee" (by simp)
    have hg := weightedChoice_singleton (rngQF rng (c + 2)) 1 (⟨1, 1⟩ : QF) 1
    simp only [List.map_cons, List.map_nil, List.mem_cons, List.not_mem_nil,
      or_false] at hcls
    rw [hg]
    rcases hcls with h | h | h | h | h <;> rw [h] <;> dsimp only <;> decide

theorem lootSlotStep_keys (acc : LootAcc) (pos : Cell) (key0 : String) (mw : Nat)
    (hacc : ∀ i ∈ acc.loot, i.key ∈ allowedKeys1200) (hkey : key0 ∈ allowedKeys1200) :
    ∀ i ∈ (lootSlotStep acc pos key0 mw).loot, i.key ∈ allowedKeys1200 := by
  unfold lootSlotStep
  split
  · split <;>
    · intro i hi
      rcases List.mem_append.mp hi with hin | hin
      · exact hacc i hin
      · rw [List.mem_singleton] at hin
        subst hin
        first
          | exact hkey
          | (dsimp only; decide)
  · intro i hi
    rcases List.mem_append.mp hi with hin | hin
    · exact hacc i hin
    · rw [List.mem_singleton] at hin
      subst hin
      exact hkey

theorem placeLootLoop_keys (rng : Nat → Nat) (w h : Nat) (P A : Cell) (mw : Nat) :
    ∀ (n c : Nat) (acc : LootAcc), (∀ i ∈ acc.loot, i.key ∈ allowedKeys1200) →
      ∀ i ∈ (placeLootLoop rng w h P A 1200 mw n c acc).1.loot, i.key ∈ allowedKeys1200 := by
  intro n
  induction n with
  | zero => intro c acc hacc; rw [placeLootLoop]; exact hacc
  | succ n ih =>
    intro c acc hacc
    rw [placeLootLoop]
    split
    · exact hacc
    · rename_i pos c' heq
      exact ih _ _ (lootSlotStep_keys acc pos _ mw hacc (pickLootKey_1200_mem rng c'))

/-- C8: at `elo = 1200` every loot item `placeLoot` emits is a healing
item or a grade-1 weapon; in particular every weapon key (key starting
with `"weapon."`) ends in `"t1"`, for every stream, cursor, grid size,
spawn pair and slot/cap configuration. -/
theorem c8_grade_one_at_1200 (rng : Nat → Nat) (c w h : Nat) (P A : Cell)
    (totalLoot maxWeapons : Nat) :
    ∀ item ∈ placeLoot rng c w h P A 1200 totalLoot maxWeapons,
      item.key ∈ allowedKeys1200 ∧
      (jsStartsWith item.key "weapon." = true → jsEndsWith item.key "t1" = true) := by
  intro item hitem
  have hmem : item.key ∈ allowedKeys1200 := by
    unfold placeLoot at hitem
    rcases hres : placeLootLoop rng w h P A 1200 maxWeapons totalLoot c ⟨[], [], false, 0⟩
      with ⟨acc, cr⟩
    rw [hres] at hitem
    have hloop : ∀ i ∈ acc.loot, i.key ∈ allowedKeys1200 := by
      have hall := placeLootLoop_keys rng w h P A maxWeapons totalLoot c ⟨[], [], false, 0⟩
        (by intro i hi; simp at hi)
      rw [hres] at hall
      exact hall
    simp only [pityPass] at hitem
    split at hitem
    · exact hloop item hitem
    · split at hitem
      · rcases List.mem_append.mp hitem with hin | hin
        · exact hloop item hin
        · rw [List.mem_singleton] at hin
          subst hin
          dsimp only
          decide
      · exact hloop item hitem
  refine ⟨hmem, ?_⟩
  simp only [allowedKeys1200, List.mem_cons, List.not_mem_nil, or_false] at hmem
  rcases hmem with h | h | h | h | h | h | h | h | h <;> rw [h] <;> decide

/-- C8 (witness): the single-slot 5×5 run with the constant-zero stream
places the grade-1 weapon `weapon.straight.t1` at `(4, 0)`. -/
theorem c8_grade_one_witness :
    (⟨(4, 0), "weapon.straight.t1"⟩ : LootItem).key ∈ allowedKeys1200 ∧
    (jsStartsWith (⟨(4, 0), "weapon.straight.t1"⟩ : LootItem).key "weapon." = true →
      jsEndsWith (⟨(4, 0), "weapon.straight.t1"⟩ : LootItem).key "t1" = true) :=
  c8_grade_one_at_1200 (fun _ => 0) 0 5 5 (1, 1) (3, 3) 1 2
    ⟨(4, 0), "weapon.straight.t1"⟩ (by decide)

theorem invGet_cons_ne (k₀ : String) (v₀ : Nat) (t : List (String × Nat)) (k : String)
    (h : ¬ k₀ = k) : invGet ((k₀, v₀) :: t) k = invGet t k := by
  simp [invGet, List.find?_cons, h]

theorem bumpCount_cons_ne (k₀ : String) (v₀ : Nat) (t : List (String × Nat)) (k : String)
    (h : ¬ k₀ = k) : bumpCount ((k₀, v₀) :: t) k = (k₀, v₀) :: bumpCount t k := by
  unfold bumpCount invSet
  rw [invGet_cons_ne k₀ v₀ t k h]
  have hh : (decide ((k₀, v₀).1 = k)) = false := by simp [h]
  simp only [List.any_cons, hh, Bool.false_or]
  split
  · rw [List.map_cons, if_neg h]
  · rw [List.cons_append]

theorem histTotal_bumpCount : ∀ (acc : List (String × Nat)) (k : String),
    (acc.map Prod.fst).Nodup → histTotal (bumpCount acc k) = histTotal acc + 1 := by
  intro acc
  induction acc with
  | nil => intro k _; simp [bumpCount, invSet, invGet, histTotal]
  | cons hd t ih =>
    obtain ⟨k₀, v₀⟩ := hd
    intro k hnd
    rw [List.map_cons, List.nodup_cons] at hnd
    by_cases hk : k₀ = k
    · subst hk
      have hnotin : ∀ p ∈ t, ¬ (p.1 = k₀) := by
        intro p hp heq
        have hm : p.1 ∈ List.map Prod.fst t := List.mem_map_of_mem Prod.fst hp
        rw [heq] at hm
        exact hnd.1 hm
      have hget : invGet ((k₀, v₀) :: t) k₀ = v₀ := by simp [invGet, List.find?_cons]
      have hmapt : t.map (fun p => if p.1 = k₀ then (k₀, v₀ + 1) else p) = t := by
        conv_rhs => rw [← List.map_id t]
        refine List.map_congr_left ?_
        intro p hp
        simp [hnotin p hp]
      have hbump : bumpCount ((k₀, v₀) :: t) k₀ = (k₀, v₀ + 1) :: t := by
        unfold bumpCount invSet
        rw [hget, if_pos (by simp), List.map_cons, if_pos rfl, hmapt]
      rw [hbump]
      simp only [histTotal, List.map_cons, List.sum_cons]
      omega
    · rw [bumpCount_cons_ne k₀ v₀ t k hk]
      have ht := ih k hnd.2
      simp only [histTotal, List.map_cons, List.sum_cons] at ht ⊢
      omega

theorem nodup_bumpCount (acc : List (String × Nat)) (k : String)
    (h : (acc.map Prod.fst).Nodup) : ((bumpCount acc k).map Prod.fst).Nodup := by
  unfold bumpCount invSet
  split
  · have : (acc.map (fun p => if p.1 = k then (k, invGet acc k + 1) else p)).map Prod.fst =
        acc.map Prod.fst := by
      rw [List.map_map]
      refine List.map_congr_left ?_
      intro p _
      by_cases hp : p.1 = k <;> simp [hp]
    rw [this]
    exact h
  · rename_i hany
    rw [List.map_append]
    refine List.Nodup.append h (by simp) ?_
    intro a ha hb
    simp only [List.map_cons, List.map_nil, List.mem_singleton] at hb
    subst hb
    rcases List.mem_map.mp ha with ⟨p, hp, hpa⟩
    exact hany (List.any_eq_true.mpr ⟨p, hp, by simp [hpa]⟩)

theorem histTotal_foldl : ∀ (l : List HistEntry) (acc : List (String × Nat)),
    (acc.map Prod.fst).Nodup →
    histTotal (l.foldl (fun a e => bumpCount a e.action) acc) = histTotal acc + l.length := by
  intro l
  induction l with
  | nil => intro acc _; simp
  | cons e t ih =>
    intro acc h
    simp only [List.foldl_cons, List.length_cons]
    rw [ih _ (nodup_bumpCount acc e.action h), histTotal_bumpCount acc e.action h]
    omega

theorem actor_filter_split : ∀ (l : List HistEntry),
    (∀ e ∈ l, e.actor = "player" ∨ e.actor = "ai") →
    (l.filter (fun e => e.actor = "player")).length +
      (l.filter (fun e => e.actor = "ai")).length = l.length := by
  intro l
  induction l with
  | nil => intro _; simp
  | cons e t ih =>
    intro h
    have ht := ih (fun x hx => h x (List.mem_cons_of_mem e hx))
    rcases h e (List.mem_cons_self e t) with he | he
    · have h1 : (decide (e.actor = "player")) = true := by rw [he]; decide
      have h2 : (decide (e.actor = "ai")) = false := by rw [he]; decide
      simp only [List.filter_cons, h1, h2, List.length_cons]
      simp
      omega
    · have h1 : (decide (e.actor = "player")) = false := by rw [he]; decide
      have h2 : (decide (e.actor = "ai")) = true := by rw [he]; decide
      simp only [List.filter_cons, h1, h2, List.length_cons]
      simp
      omega

/-- C4 (amended): the per-player `actionsHistogram` totals sum to the
number of resolved actions only for the KO archive written by
`archiveGame` (move.js) — proved here for every history whose entries
were recorded for `"player"` or `"ai"` — while the `/end_game` archival
document built by `buildHistoricalFromActive` (the path the spec's
`initiate → update*N → end_game` flow takes) copies `active.players`
verbatim and computes **no** per-player `actionsHistogram`, so the
totals property fails there (see the counterexample). -/
theorem c4_histogram_totals (g : GameState) (mk : String)
    (h : ∀ e ∈ g.actionHistory, e.actor = "player" ∨ e.actor = "ai") :
    ((archiveGameDoc g mk).playersOf.map (fun p => histTotal p.actionsHistogram)).sum =
      g.actionHistory.length ∧
    (∀ (active : GameState) (mk' : String) (rr : Option String) (ow : Option Winner),
      (∃ summary, buildHistoricalFromActive active mk' rr ow
        = .endGameArchive mk' active.players summary) ∧
      (buildHistoricalFromActive active mk' rr ow).playersOf = []) := by
  constructor
  · simp only [archiveGameDoc, HistDoc.playersOf, List.map_cons, List.map_nil, List.sum_cons,
      List.sum_nil]
    unfold actionsHistogramFor
    rw [histTotal_foldl _ [] (by simp), histTotal_foldl _ [] (by simp)]
    simp only [histTotal, List.map_nil, List.sum_nil, Nat.zero_add, Nat.add_zero]
    exact actor_filter_split g.actionHistory h
  · intro active mk' rr ow
    exact ⟨⟨_, rfl⟩, rfl⟩

/-- C4 (counterexample): a match with one resolved action archived
through `/end_game` stores the raw player slots verbatim — the document
carries no `actionsHistogram` for any player, so the sum of its
histogram totals is the empty sum `0`, not `N = 1`. -/
theorem c4_endgame_counterexample :
    buildHistoricalFromActive
        { egState with actionHistory := [⟨"player", "SKIP_TURN"⟩] } "m1" none none
      = HistDoc.endGameArchive "m1" egState.players ⟨0, none, some "end_game"⟩ ∧
    (((buildHistoricalFromActive
        { egState with actionHistory := [⟨"player", "SKIP_TURN"⟩] } "m1" none
        none).playersOf.map (fun p => histTotal p.actionsHistogram)).sum = 0) ∧
    ({ egState with actionHistory := [⟨"player", "SKIP_TURN"⟩] } :
      GameState).actionHistory.length = 1 ∧ (0 : Nat) ≠ 1 := by
  refine ⟨rfl, rfl, rfl, by decide⟩

/-- C4 (witness): a three-entry history (two player actions, one AI
action) archives to histograms totalling 3 on the KO path. -/
theorem c4_histogram_witness :
    ((archiveGameDoc { egState with actionHistory :=
        [⟨"player", "MOVE"⟩, ⟨"ai", "MOVE"⟩, ⟨"player", "SKIP_TURN"⟩] } "m1").playersOf.map
      (fun p => histTotal p.actionsHistogram)).sum = 3 :=
  (c4_histogram_totals _ "m1" (by decide)).1

theorem getOpponent_setOpponent (s : GameState) (actor : String) (e : Entity) :
    getOpponent (setOpponent s actor e) actor = e := by
  by_cases ha : actor = "player" <;> simp [getOpponent, setOpponent, ha]

theorem getOpponent_wrap (y : GameState) (st : String) (w : Option Winner) (actor : String) :
    getOpponent { y with status := st, winner := w } actor = getOpponent y actor := by
  unfold getOpponent
  split <;> rfl

/-- C3 (counterexample): with the straight tier-5 recipe (damage 50) and
the opponent at 10 HP on the shot cell, the successful SHOOT leaves the
opponent at 0 HP — a decrease of 10, not of the weapon's damage 50,
because the code clamps HP to `[0, 100]`. -/
theorem c3_overkill_counterexample :
    (resolveShoot [t5Recipe]
        { egState with
          player := { egPlayer with pos := (2, 2), weapons := ["weapon.straight.t5"] },
          ai := { egAi with pos := (2, 0), hp := 10 } }
        "player" { weaponKey := some "weapon.straight.t5", target := some (2, 0) }).toOption.map
        (fun out => (out.1.ai.hp, out.2.hit)) = some (0, true) ∧
    (10 : Int) - 0 ≠ 50 := by
  constructor
  · decide
  · decide

/-- C3 (amended): on every successful SHOOT resolution, if the target
cell equals the opponent's position the opponent's HP becomes
`clamp(hp − damage, 0, 100)` — a decrease of exactly the weapon's damage
whenever `0 ≤ damage ≤ hp ≤ 100` — and if the target cell is not the
opponent's position the opponent is unchanged. -/
theorem c3_shoot_damage_clamped (cat : Catalog) (s : GameState) (actor : String) (p : Params)
    (s' : GameState) (r : ResolveOut) (h : resolveShoot cat s actor p = .ok (s', r)) :
    (∀ tgt, p.target = some tgt → (getOpponent s actor).pos ≠ tgt →
      getOpponent s' actor = getOpponent s actor) ∧
    (∀ tgt rec, p.target = some tgt →
      loadRecipe cat (p.weaponKey.getD "") "weapon" = .ok rec →
      (getOpponent s actor).pos = tgt →
        (getOpponent s' actor).hp = clamp ((getOpponent s actor).hp - rec.damage) 0 100 ∧
        (0 ≤ rec.damage → rec.damage ≤ (getOpponent s actor).hp →
          (getOpponent s actor).hp ≤ 100 →
          (getOpponent s actor).hp - (getOpponent s' actor).hp = rec.damage)) := by
  rcases hwk : p.weaponKey with _ | weaponKey <;>
    rcases htgt : p.target with _ | tgt0 <;>
    simp only [resolveShoot, hwk, htgt] at h
  all_goals try exact Except.noConfusion h
  split at h
  · exact Except.noConfusion h
  split at h
  · exact Except.noConfusion h
  rcases hrec : loadRecipe cat weaponKey "weapon" with e | rec0 <;> rw [hrec] at h <;>
    dsimp only at h
  · exact Except.noConfusion h
  split at h
  · exact Except.noConfusion h
  split at h
  case isFalse => exact Except.noConfusion h
  have hfin : ∀ hb : GameState, getOpponent hb actor =
      (if (getOpponent s actor).pos = tgt0
        then { getOpponent s actor with
                hp := clamp ((getOpponent s actor).hp - rec0.damage) 0 100 }
        else getOpponent s actor) →
      ((∀ tgt, some tgt0 = some tgt → (getOpponent s actor).pos ≠ tgt →
        getOpponent hb actor = getOpponent s actor) ∧
      (∀ tgt rec, some tgt0 = some tgt →
        loadRecipe cat ((some weaponKey).getD "") "weapon" = .ok rec →
        (getOpponent s actor).pos = tgt →
          (getOpponent hb actor).hp = clamp ((getOpponent s actor).hp - rec.damage) 0 100 ∧
          (0 ≤ rec.damage → rec.damage ≤ (getOpponent s actor).hp →
            (getOpponent s actor).hp ≤ 100 →
            (getOpponent s actor).hp - (getOpponent hb actor).hp = rec.damage))) := by
    intro hb hOpp
    constructor
    · intro tgt htgt' hne
      injection htgt' with htgt'
      subst htgt'
      rw [hOpp, if_neg hne]
    · intro tgt rec htgt' hrec' hpos
      injection htgt' with htgt'
      subst htgt'
      simp only [Option.getD_some] at hrec'
      rw [hrec] at hrec'
      injection hrec' with hrec'
      subst hrec'
      rw [hOpp, if_pos hpos]
      refine ⟨rfl, ?_⟩
      intro hd0 hdle hle
      simp only [clamp]
      omega
  split at h <;> split at h <;>
  · injection h with hpair
    have hs : s' = _ := (congrArg Prod.fst hpair).symm
    subst hs
    refine hfin _ ?_
    simp only [getOpponent_wrap, getOpponent_setOpponent]
    first
      | (rw [if_pos (by assumption)])
      | (rw [if_neg (by assumption)])

/-- C3 (witness): a non-overkill shot (80 HP, damage 50) decreases the
opponent's HP by exactly the weapon's damage. -/
theorem c3_shoot_witness :
    (getOpponent c3S "player").hp - (getOpponent c3Sx "player").hp = t5Recipe.damage :=
  ((c3_shoot_damage_clamped [t5Recipe] c3S "player"
      { weaponKey := some "weapon.straight.t5", target := some (2, 0) } c3Sx
      { consumeTurn := true, ended := false, hit := true, damage := 50 } (by rfl)).2
    (2, 0) t5Recipe rfl rfl rfl).2 (by decide) (by decide) (by decide)

theorem setEntity_walls (s : GameState) (who : String) (e : Entity) :
    (setEntity s who e).walls = s.walls := by
  unfold setEntity; split <;> rfl

theorem setEntity_player_pos (s : GameState) (who : String) (e : Entity)
    (h : e.pos = (getEntity s who).pos) :
    (setEntity s who e).player.pos = s.player.pos := by
  by_cases hw : who = "player"
  · simp [setEntity, getEntity, hw] at h ⊢; exact h
  · simp [setEntity, hw]

theorem setEntity_ai_pos (s : GameState) (who : String) (e : Entity)
    (h : e.pos = (getEntity s who).pos) :
    (setEntity s who e).ai.pos = s.ai.pos := by
  by_cases hw : who = "player"
  · simp [setEntity, hw]
  · simp [setEntity, getEntity, hw] at h ⊢; exact h

theorem setOpponent_walls (s : GameState) (a : String) (e : Entity) :
    (setOpponent s a e).walls = s.walls := by
  unfold setOpponent; split <;> rfl

theorem setOpponent_player_pos (s : GameState) (a : String) (e : Entity)
    (h : e.pos = (getOpponent s a).pos) :
    (setOpponent s a e).player.pos = s.player.pos := by
  by_cases hw : a = "player"
  · simp [setOpponent, hw]
  · simp [setOpponent, getOpponent, hw] at h ⊢; exact h

theorem setOpponent_ai_pos (s : GameState) (a : String) (e : Entity)
    (h : e.pos = (getOpponent s a).pos) :
    (setOpponent s a e).ai.pos = s.ai.pos := by
  by_cases hw : a = "player"
  · simp [setOpponent, getOpponent, hw] at h ⊢; exact h
  · simp [setOpponent, hw]

theorem payCosts_pos (e : Entity) (r : Recipe) (e' : Entity)
    (h : payCostsOrThrow e r = .ok e') : e'.pos = e.pos := by
  simp only [payCostsOrThrow] at h
  split at h
  · exact Except.noConfusion h
  split at h
  · exact Except.noConfusion h
  split at h
  · exact Except.noConfusion h
  injection h with h'
  subst h'
  rfl

theorem awardWeapon_pos (e : Entity) (k : String) : (awardWeapon e k).pos = e.pos := by
  unfold awardWeapon; split <;> rfl

theorem tryPickupResources_frame (s : GameState) (who : String) :
    (tryPickupResources s who).player.pos = s.player.pos ∧
    (tryPickupResources s who).ai.pos = s.ai.pos ∧
    (tryPickupResources s who).walls = s.walls := by
  by_cases hw : who = "player" <;>
    simp [tryPickupResources, setEntity, getEntity, hw]

theorem tryPickupLoot_frame (s : GameState) (who : String) :
    (tryPickupLoot s who).player.pos = s.player.pos ∧
    (tryPickupLoot s who).ai.pos = s.ai.pos ∧
    (tryPickupLoot s who).walls = s.walls := by
  simp only [tryPickupLoot]
  split
  · exact ⟨rfl, rfl, rfl⟩
  · split <;> by_cases hw : who = "player" <;>
      simp [setEntity, getEntity, awardWeapon_pos, hw]

theorem occupancyOK_congr (s s' : GameState)
    (h1 : s'.player.pos = s.player.pos) (h2 : s'.ai.pos = s.ai.pos)
    (h3 : s'.walls = s.walls) (h : OccupancyOK s) : OccupancyOK s' := by
  unfold OccupancyOK at h ⊢
  rw [h1, h2, h3]
  exact h

theorem move_target_occupancy (s : GameState) (actor : String) (target : Cell)
    (hocc : OccupancyOK s) (hno : ¬ cellOccupied s target false false) :
    OccupancyOK (setEntity s actor { getEntity s actor with pos := target }) := by
  obtain ⟨hpa, hwp, hww⟩ := hocc
  have hpt : s.player.pos ≠ target := fun he => hno (Or.inl ⟨rfl, he⟩)
  have hat : s.ai.pos ≠ target := fun he => hno (Or.inr (Or.inl ⟨rfl, he⟩))
  have hwt : ∀ w ∈ s.walls, w.pos ≠ target :=
    fun w hw he => hno (Or.inr (Or.inr ⟨w, hw, he⟩))
  by_cases hw : actor = "player"
  · subst hw
    show OccupancyOK { s with player := { s.player with pos := target } }
    exact ⟨fun he => hat he.symm, fun w hw' => ⟨hwt w hw', (hwp w hw').2⟩, hww⟩
  · have hsd : setEntity s actor { getEntity s actor with pos := target } =
        { s with ai := { s.ai with pos := target } } := by
      simp [setEntity, getEntity, hw]
    rw [hsd]
    exact ⟨hpt, fun w hw' => ⟨(hwp w hw').1, hwt w hw'⟩, hww⟩

theorem move_post (s : GameState) (actor : String) (target : Cell)
    (hocc : OccupancyOK s) (hno : ¬ cellOccupied s target false false) :
    OccupancyOK (tryPickupLoot (tryPickupResources
      (setEntity s actor { getEntity s actor with pos := target }) actor) actor) ∧
    (tryPickupLoot (tryPickupResources
      (setEntity s actor { getEntity s actor with pos := target }) actor) actor).walls
      = s.walls := by
  have h1 := move_target_occupancy s actor target hocc hno
  obtain ⟨hp1, ha1, hw1⟩ :=
    tryPickupResources_frame (setEntity s actor { getEntity s actor with pos := target }) actor
  obtain ⟨hp2, ha2, hw2⟩ :=
    tryPickupLoot_frame
      (tryPickupResources (setEntity s actor { getEntity s actor with pos := target }) actor) actor
  constructor
  · exact occupancyOK_congr _ _ (hp2.trans hp1) (ha2.trans ha1) (hw2.trans hw1) h1
  · exact (hw2.trans hw1).trans (setEntity_walls s actor _)

theorem resolveMove_occupancy (s : GameState) (actor : String) (p : Params)
    (s' : GameState) (r : ResolveOut)
    (h : resolveMove s actor p = .ok (s', r)) (hocc : OccupancyOK s) :
    OccupancyOK s' ∧ s'.walls = s.walls := by
  rcases htc : p.toCell with _ | t
  · rcases hdx : p.dx with _ | dx <;> rcases hdy : p.dy with _ | dy <;>
      simp only [resolveMove, htc, hdx, hdy] at h
    all_goals try exact Except.noConfusion h
    split at h
    · exact Except.noConfusion h
    split at h
    · exact Except.noConfusion h
    split at h
    · exact Except.noConfusion h
    rename_i hno
    injection h with hpair
    have hs : s' = _ := (congrArg Prod.fst hpair).symm
    subst hs
    exact move_post s actor _ hocc hno
  · simp only [resolveMove, htc] at h
    split at h
    · exact Except.noConfusion h
    split at h
    · exact Except.noConfusion h
    split at h
    · exact Except.noConfusion h
    rename_i hno
    injection h with hpair
    have hs : s' = _ := (congrArg Prod.fst hpair).symm
    subst hs
    exact move_post s actor _ hocc hno

theorem resolveShoot_frame (cat : Catalog) (s : GameState) (actor : String) (p : Params)
    (s' : GameState) (r : ResolveOut) (h : resolveShoot cat s actor p = .ok (s', r)) :
    s'.player.pos = s.player.pos ∧ s'.ai.pos = s.ai.pos ∧ s'.walls = s.walls := by
  rcases hwk : p.weaponKey with _ | weaponKey <;>
    rcases htgt : p.target with _ | tgt0 <;>
    simp only [resolveShoot, hwk, htgt] at h
  all_goals try exact Except.noConfusion h
  split at h
  · exact Except.noConfusion h
  split at h
  · exact Except.noConfusion h
  rcases hrec : loadRecipe cat weaponKey "weapon" with e | rec0 <;> rw [hrec] at h <;>
    dsimp only at h
  · exact Except.noConfusion h
  split at h
  · exact Except.noConfusion h
  split at h
  case isFalse => exact Except.noConfusion h
  split at h <;> split at h <;>
  · injection h with hpair
    have hs : s' = _ := (congrArg Prod.fst hpair).symm
    subst hs
    exact ⟨setOpponent_player_pos s actor _ rfl,
           setOpponent_ai_pos s actor _ rfl,
           setOpponent_walls s actor _⟩

theorem resolveCraftWeapon_frame (cat : Catalog) (s : GameState) (actor : String)
    (p : Params) (s' : GameState) (r : ResolveOut)
    (h : resolveCraftWeapon cat s actor p = .ok (s', r)) :
    s'.player.pos = s.player.pos ∧ s'.ai.pos = s.ai.pos ∧ s'.walls = s.walls := by
  rcases hk : p.key with _ | key <;> simp only [resolveCraftWeapon, hk] at h
  · exact Except.noConfusion h
  rcases hrec : loadRecipe cat key "weapon" with e | rec <;> rw [hrec] at h <;>
    dsimp only at h
  · exact Except.noConfusion h
  rcases hpay : payCostsOrThrow (getEntity s actor) rec with e | ent' <;> rw [hpay] at h <;>
    dsimp only at h
  · exact Except.noConfusion h
  injection h with hpair
  have hs : s' = _ := (congrArg Prod.fst hpair).symm
  subst hs
  have hpos : (awardWeapon ent' key).pos = (getEntity s actor).pos := by
    rw [awardWeapon_pos]; exact payCosts_pos _ _ _ hpay
  exact ⟨setEntity_player_pos s actor _ hpos, setEntity_ai_pos s actor _ hpos,
         setEntity_walls s actor _⟩

theorem resolveHeal_frame (cat : Catalog) (s : GameState) (actor : String) (p : Params)
    (s' : GameState) (r : ResolveOut) (h : resolveHeal cat s actor p = .ok (s', r)) :
    s'.player.pos = s.player.pos ∧ s'.ai.pos = s.ai.pos ∧ s'.walls = s.walls := by
  rcases hk : p.key with _ | key <;> simp only [resolveHeal, hk] at h
  · exact Except.noConfusion h
  split at h
  · injection h with hpair
    have hs : s' = _ := (congrArg Prod.fst hpair).symm
    subst hs
    exact ⟨setEntity_player_pos s actor _ rfl, setEntity_ai_pos s actor _ rfl,
           setEntity_walls s actor _⟩
  · rcases hrec : loadRecipe cat key "healing" with e | rec <;> rw [hrec] at h <;>
      dsimp only at h
    · exact Except.noConfusion h
    rcases hpay : payCostsOrThrow (getEntity s actor) rec with e | ent' <;> rw [hpay] at h <;>
      dsimp only at h
    · exact Except.noConfusion h
    injection h with hpair
    have hs : s' = _ := (congrArg Prod.fst hpair).symm
    subst hs
    have hpos : ({ ent' with hp := clamp (ent'.hp + rec.heal.getD 0) 0 100 } : Entity).pos
        = (getEntity s actor).pos := by
      show ent'.pos = (getEntity s actor).pos
      exact payCosts_pos _ _ _ hpay
    exact ⟨setEntity_player_pos s actor _ hpos, setEntity_ai_pos s actor _ hpos,
           setEntity_walls s actor _⟩

theorem interactSetArr_frame (s : GameState) (ty : String) (arr' : List Cell) :
    (interactSetArr s ty arr').player = s.player ∧
    (interactSetArr s ty arr').ai = s.ai ∧
    (interactSetArr s ty arr').walls = s.walls := by
  unfold interactSetArr
  split
  · exact ⟨rfl, rfl, rfl⟩
  split <;> exact ⟨rfl, rfl, rfl⟩

theorem getEntity_congr (s s₁ : GameState) (hpl : s₁.player = s.player)
    (hai : s₁.ai = s.ai) (who : String) : getEntity s₁ who = getEntity s who := by
  unfold getEntity
  split
  · exact hpl
  · exact hai

theorem resolveInteract_frame (s : GameState) (actor : String) (p : Params)
    (s' : GameState) (r : ResolveOut) (h : resolveInteract s actor p = .ok (s', r)) :
    s'.player.pos = s.player.pos ∧ s'.ai.pos = s.ai.pos ∧ s'.walls = s.walls := by
  rcases hp : p.pos with _ | pos <;> rcases hi : p.itype with _ | ty <;>
    simp only [resolveInteract, hp, hi] at h
  all_goals try exact Except.noConfusion h
  split at h
  · exact Except.noConfusion h
  split at h
  · exact Except.noConfusion h
  split at h
  · exact Except.noConfusion h
  injection h with hpair
  have hs : s' = _ := (congrArg Prod.fst hpair).symm
  subst hs
  obtain ⟨hpl, hai, hwl⟩ := interactSetArr_frame s ty ((interactArr s ty).erase pos)
  refine ⟨(setEntity_player_pos _ actor _ ?_).trans (congrArg Entity.pos hpl),
          (setEntity_ai_pos _ actor _ ?_).trans (congrArg Entity.pos hai),
          (setEntity_walls _ actor _).trans hwl⟩ <;>
    rw [getEntity_congr _ _ hpl hai]

theorem resolveCraftWall_occupancy (cat : Catalog) (s : GameState) (actor : String)
    (p : Params) (s' : GameState) (r : ResolveOut)
    (h : resolveCraftWall cat s actor p = .ok (s', r)) (hocc : OccupancyOK s) :
    OccupancyOK s' ∧ s'.player.pos = s.player.pos ∧ s'.ai.pos = s.ai.pos := by
  rcases hk : p.key with _ | key <;> rcases hp : p.pos with _ | pos <;>
    simp only [resolveCraftWall, hk, hp] at h
  all_goals try exact Except.noConfusion h
  split at h
  · exact Except.noConfusion h
  rcases hrec : loadRecipe cat key "wall" with e | rec <;> rw [hrec] at h <;>
    dsimp only at h
  · exact Except.noConfusion h
  rcases hpay : payCostsOrThrow (getEntity s actor) rec with e | ent' <;> rw [hpay] at h <;>
    dsimp only at h
  · exact Except.noConfusion h
  split at h
  · exact Except.noConfusion h
  split at h
  · exact Except.noConfusion h
  rename_i hno
  rcases hput : putWall (setEntity s actor ent') pos (rec.wallHp.getD 20) with e | s₂ <;>
    rw [hput] at h <;> dsimp only at h
  · exact Except.noConfusion h
  injection h with hpair
  have hs : s' = s₂ := (congrArg Prod.fst hpair).symm
  subst hs
  simp only [putWall] at hput
  split at hput
  · exact Except.noConfusion hput
  rename_i hdup
  injection hput with hput'
  subst hput'
  have hpe : ent'.pos = (getEntity s actor).pos := payCosts_pos _ _ _ hpay
  have hp1 : (setEntity s actor ent').player.pos = s.player.pos :=
    setEntity_player_pos s actor _ hpe
  have ha1 : (setEntity s actor ent').ai.pos = s.ai.pos := setEntity_ai_pos s actor _ hpe
  have hw1 : (setEntity s actor ent').walls = s.walls := setEntity_walls s actor _
  have hppos : (setEntity s actor ent').player.pos ≠ pos := fun he => hno (Or.inl ⟨rfl, he⟩)
  have hapos : (setEntity s actor ent').ai.pos ≠ pos :=
    fun he => hno (Or.inr (Or.inl ⟨rfl, he⟩))
  refine ⟨⟨?_, ?_, ?_⟩, hp1, ha1⟩
  · show (setEntity s actor ent').player.pos ≠ (setEntity s actor ent').ai.pos
    rw [hp1, ha1]; exact hocc.1
  · intro w hw
    rcases List.mem_append.1 hw with hw' | hw'
    · have hmem : w ∈ s.walls := by rw [← hw1]; exact hw'
      have hw2 := hocc.2.1 w hmem
      constructor
      · show w.pos ≠ (setEntity s actor ent').player.pos
        rw [hp1]; exact hw2.1
      · show w.pos ≠ (setEntity s actor ent').ai.pos
        rw [ha1]; exact hw2.2
    · have hwp : w = ⟨pos, rec.wallHp.getD 20⟩ := by simpa using hw'
      subst hwp
      exact ⟨fun he => hppos he.symm, fun he => hapos he.symm⟩
  · show ((setEntity s actor ent').walls ++ [(⟨pos, rec.wallHp.getD 20⟩ : Wall)]).Pairwise
      (fun a b => a.pos ≠ b.pos)
    rw [List.pairwise_append]
    refine ⟨?_, List.pairwise_singleton _ _, ?_⟩
    · show (setEntity s actor ent').walls.Pairwise _
      rw [hw1]; exact hocc.2.2
    · intro a ha b hb
      have hb' : b = ⟨pos, rec.wallHp.getD 20⟩ := by simpa using hb
      subst hb'
      intro he
      exact hdup ⟨a, ha, he⟩

/-- C10: every successful player-action resolution preserves the pairwise
distinctness of the player cell, the AI cell and all wall cells; every
action other than MOVE leaves both entity positions unchanged, and every
action other than CRAFT_WALL leaves the wall list unchanged. -/
theorem c10_occupancy_preserved (cat : Catalog) (s : GameState) (actor t : String)
    (p : Params) (s' : GameState) (r : ResolveOut)
    (h : dispatchPlayerAction cat s actor t p = .ok (s', r)) (hocc : OccupancyOK s) :
    OccupancyOK s' ∧
    (t ≠ "MOVE" → s'.player.pos = s.player.pos ∧ s'.ai.pos = s.ai.pos) ∧
    (t ≠ "CRAFT_WALL" → s'.walls = s.walls) := by
  simp only [dispatchPlayerAction] at h
  split at h
  · rename_i ht
    have hm := resolveMove_occupancy s actor p s' r h hocc
    exact ⟨hm.1, fun hne => absurd ht hne, fun _ => hm.2⟩
  split at h
  · obtain ⟨f1, f2, f3⟩ := resolveShoot_frame cat s actor p s' r h
    exact ⟨occupancyOK_congr _ _ f1 f2 f3 hocc, fun _ => ⟨f1, f2⟩, fun _ => f3⟩
  split at h
  · obtain ⟨f1, f2, f3⟩ := resolveCraftWeapon_frame cat s actor p s' r h
    exact ⟨occupancyOK_congr _ _ f1 f2 f3 hocc, fun _ => ⟨f1, f2⟩, fun _ => f3⟩
  split at h
  · rename_i ht
    have hm := resolveCraftWall_occupancy cat s actor p s' r h hocc
    exact ⟨hm.1, fun _ => ⟨hm.2.1, hm.2.2⟩, fun hne => absurd ht hne⟩
  split at h
  · obtain ⟨f1, f2, f3⟩ := resolveHeal_frame cat s actor p s' r h
    exact ⟨occupancyOK_congr _ _ f1 f2 f3 hocc, fun _ => ⟨f1, f2⟩, fun _ => f3⟩
  split at h
  · obtain ⟨f1, f2, f3⟩ := resolveInteract_frame s actor p s' r h
    exact ⟨occupancyOK_congr _ _ f1 f2 f3 hocc, fun _ => ⟨f1, f2⟩, fun _ => f3⟩
  split at h
  · injection h with hpair
    have hs : s' = s := (congrArg Prod.fst hpair).symm
    subst hs
    exact ⟨hocc, fun _ => ⟨rfl, rfl⟩, fun _ => rfl⟩
  · exact Except.noConfusion h

/-- C10 (witness): the 3×3 scenario state satisfies the occupancy
invariant, and so does its update by a successful MOVE to `(0, 1)`. -/
theorem c10_occupancy_witness :
    OccupancyOK egState ∧
    OccupancyOK { egState with player := { egPlayer with pos := (0, 1) } } :=
  ⟨by decide,
   (c10_occupancy_preserved egCatalog egState "player" "MOVE" { toCell := some (0, 1) }
      { egState with player := { egPlayer with pos := (0, 1) } } { consumeTurn := true }
      (by rfl) (by decide)).1⟩

theorem setEntity_hv (s : GameState) (who : String) (e : Entity) :
    (setEntity s who e).actionHistory = s.actionHistory ∧
    (setEntity s who e).version = s.version := by
  unfold setEntity; split <;> exact ⟨rfl, rfl⟩

theorem setOpponent_hv (s : GameState) (a : String) (e : Entity) :
    (setOpponent s a e).actionHistory = s.actionHistory ∧
    (setOpponent s a e).version = s.version := by
  unfold setOpponent; split <;> exact ⟨rfl, rfl⟩

theorem tryPickupResources_hv (s : GameState) (who : String) :
    (tryPickupResources s who).actionHistory = s.actionHistory ∧
    (tryPickupResources s who).version = s.version := by
  by_cases hw : who = "player" <;>
    simp [tryPickupResources, setEntity, getEntity, hw]

theorem tryPickupLoot_hv (s : GameState) (who : String) :
    (tryPickupLoot s who).actionHistory = s.actionHistory ∧
    (tryPickupLoot s who).version = s.version := by
  simp only [tryPickupLoot]
  split
  · exact ⟨rfl, rfl⟩
  · split <;> by_cases hw : who = "player" <;> simp [setEntity, hw]

theorem interactSetArr_hv (s : GameState) (ty : String) (arr' : List Cell) :
    (interactSetArr s ty arr').actionHistory = s.actionHistory ∧
    (interactSetArr s ty arr').version = s.version := by
  unfold interactSetArr
  split
  · exact ⟨rfl, rfl⟩
  split <;> exact ⟨rfl, rfl⟩

theorem move_post_hv (s : GameState) (actor : String) (e : Entity) :
    (tryPickupLoot (tryPickupResources (setEntity s actor e) actor) actor).actionHistory
      = s.actionHistory ∧
    (tryPickupLoot (tryPickupResources (setEntity s actor e) actor) actor).version
      = s.version :=
  ⟨((tryPickupLoot_hv _ actor).1.trans (tryPickupResources_hv _ actor).1).trans
     (setEntity_hv s actor _).1,
   ((tryPickupLoot_hv _ actor).2.trans (tryPickupResources_hv _ actor).2).trans
     (setEntity_hv s actor _).2⟩

theorem resolveMove_hv (s : GameState) (actor : String) (p : Params)
    (s' : GameState) (r : ResolveOut) (h : resolveMove s actor p = .ok (s', r)) :
    s'.actionHistory = s.actionHistory ∧ s'.version = s.version ∧ r.consumeTurn = true := by
  rcases htc : p.toCell with _ | t
  · rcases hdx : p.dx with _ | dx <;> rcases hdy : p.dy with _ | dy <;>
      simp only [resolveMove, htc, hdx, hdy] at h
    all_goals try exact Except.noConfusion h
    split at h
    · exact Except.noConfusion h
    split at h
    · exact Except.noConfusion h
    split at h
    · exact Except.noConfusion h
    injection h with hpair
    have hs : s' = _ := (congrArg Prod.fst hpair).symm
    have hr : r = _ := (congrArg Prod.snd hpair).symm
    subst hs; subst hr
    exact ⟨(move_post_hv s actor _).1, (move_post_hv s actor _).2, rfl⟩
  · simp only [resolveMove, htc] at h
    split at h
    · exact Except.noConfusion h
    split at h
    · exact Except.noConfusion h
    split at h
    · exact Except.noConfusion h
    injection h with hpair
    have hs : s' = _ := (congrArg Prod.fst hpair).symm
    have hr : r = _ := (congrArg Prod.snd hpair).symm
    subst hs; subst hr
    exact ⟨(move_post_hv s actor _).1, (move_post_hv s actor _).2, rfl⟩

theorem resolveShoot_hv (cat : Catalog) (s : GameState) (actor : String) (p : Params)
    (s' : GameState) (r : ResolveOut) (h : resolveShoot cat s actor p = .ok (s', r)) :
    s'.actionHistory = s.actionHistory ∧ s'.version = s.version ∧ r.consumeTurn = true := by
  rcases hwk : p.weaponKey with _ | weaponKey <;>
    rcases htgt : p.target with _ | tgt0 <;>
    simp only [resolveShoot, hwk, htgt] at h
  all_goals try exact Except.noConfusion h
  split at h
  · exact Except.noConfusion h
  split at h
  · exact Except.noConfusion h
  rcases hrec : loadRecipe cat weaponKey "weapon" with e | rec0 <;> rw [hrec] at h <;>
    dsimp only at h
  · exact Except.noConfusion h
  split at h
  · exact Except.noConfusion h
  split at h
  case isFalse => exact Except.noConfusion h
  split at h <;> split at h <;>
  · injection h with hpair
    have hs : s' = _ := (congrArg Prod.fst hpair).symm
    have hr : r = _ := (congrArg Prod.snd hpair).symm
    subst hs; subst hr
    exact ⟨(setOpponent_hv s actor _).1, (setOpponent_hv s actor _).2, rfl⟩

theorem resolveCraftWeapon_hv (cat : Catalog) (s : GameState) (actor : String)
    (p : Params) (s' : GameState) (r : ResolveOut)
    (h : resolveCraftWeapon cat s actor p = .ok (s', r)) :
    s'.actionHistory = s.actionHistory ∧ s'.version = s.version ∧ r.consumeTurn = false := by
  rcases hk : p.key with _ | key <;> simp only [resolveCraftWeapon, hk] at h
  · exact Except.noConfusion h
  rcases hrec : loadRecipe cat key "weapon" with e | rec <;> rw [hrec] at h <;>
    dsimp only at h
  · exact Except.noConfusion h
  rcases hpay : payCostsOrThrow (getEntity s actor) rec with e | ent' <;> rw [hpay] at h <;>
    dsimp only at h
  · exact Except.noConfusion h
  injection h with hpair
  have hs : s' = _ := (congrArg Prod.fst hpair).symm
  have hr : r = _ := (congrArg Prod.snd hpair).symm
  subst hs; subst hr
  exact ⟨(setEntity_hv s actor _).1, (setEntity_hv s actor _).2, rfl⟩

theorem resolveHeal_hv (cat : Catalog) (s : GameState) (actor : String) (p : Params)
    (s' : GameState) (r : ResolveOut) (h : resolveHeal cat s actor p = .ok (s', r)) :
    s'.actionHistory = s.actionHistory ∧ s'.version = s.version ∧ r.consumeTurn = false := by
  rcases hk : p.key with _ | key <;> simp only [resolveHeal, hk] at h
  · exact Except.noConfusion h
  split at h
  · injection h with hpair
    have hs : s' = _ := (congrArg Prod.fst hpair).symm
    have hr : r = _ := (congrArg Prod.snd hpair).symm
    subst hs; subst hr
    exact ⟨(setEntity_hv s actor _).1, (setEntity_hv s actor _).2, rfl⟩
  · rcases hrec : loadRecipe cat key "healing" with e | rec <;> rw [hrec] at h <;>
      dsimp only at h
    · exact Except.noConfusion h
    rcases hpay : payCostsOrThrow (getEntity s actor) rec with e | ent' <;> rw [hpay] at h <;>
      dsimp only at h
    · exact Except.noConfusion h
    injection h with hpair
    have hs : s' = _ := (congrArg Prod.fst hpair).symm
    have hr : r = _ := (congrArg Prod.snd hpair).symm
    subst hs; subst hr
    exact ⟨(setEntity_hv s actor _).1, (setEntity_hv s actor _).2, rfl⟩

theorem resolveInteract_hv (s : GameState) (actor : String) (p : Params)
    (s' : GameState) (r : ResolveOut) (h : resolveInteract s actor p = .ok (s', r)) :
    s'.actionHistory = s.actionHistory ∧ s'.version = s.version ∧ r.consumeTurn = true := by
  rcases hp : p.pos with _ | pos <;> rcases hi : p.itype with _ | ty <;>
    simp only [resolveInteract, hp, hi] at h
  all_goals try exact Except.noConfusion h
  split at h
  · exact Except.noConfusion h
  split at h
  · exact Except.noConfusion h
  split at h
  · exact Except.noConfusion h
  injection h with hpair
  have hs : s' = _ := (congrArg Prod.fst hpair).symm
  have hr : r = _ := (congrArg Prod.snd hpair).symm
  subst hs; subst hr
  have hia := interactSetArr_hv s ty ((interactArr s ty).erase pos)
  exact ⟨(setEntity_hv _ actor _).1.trans hia.1, (setEntity_hv _ actor _).2.trans hia.2, rfl⟩

theorem resolveCraftWall_hv (cat : Catalog) (s : GameState) (actor : String)
    (p : Params) (s' : GameState) (r : ResolveOut)
    (h : resolveCraftWall cat s actor p = .ok (s', r)) :
    s'.actionHistory = s.actionHistory ∧ s'.version = s.version ∧ r.consumeTurn = true := by
  rcases hk : p.key with _ | key <;> rcases hp : p.pos with _ | pos <;>
    simp only [resolveCraftWall, hk, hp] at h
  all_goals try exact Except.noConfusion h
  split at h
  · exact Except.noConfusion h
  rcases hrec : loadRecipe cat key "wall" with e | rec <;> rw [hrec] at h <;>
    dsimp only at h
  · exact Except.noConfusion h
  rcases hpay : payCostsOrThrow (getEntity s actor) rec with e | ent' <;> rw [hpay] at h <;>
    dsimp only at h
  · exact Except.noConfusion h
  split at h
  · exact Except.noConfusion h
  split at h
  · exact Except.noConfusion h
  rcases hput : putWall (setEntity s actor ent') pos (rec.wallHp.getD 20) with e | s₂ <;>
    rw [hput] at h <;> dsimp only at h
  · exact Except.noConfusion h
  injection h with hpair
  have hs : s' = s₂ := (congrArg Prod.fst hpair).symm
  have hr : r = _ := (congrArg Prod.snd hpair).symm
  subst hs; subst hr
  simp only [putWall] at hput
  split at hput
  · exact Except.noConfusion hput
  injection hput with hput'
  subst hput'
  exact ⟨(setEntity_hv s actor _).1, (setEntity_hv s actor _).2, rfl⟩

theorem dispatchPlayer_hv (cat : Catalog) (s : GameState) (actor t : String) (p : Params)
    (s' : GameState) (r : ResolveOut)
    (h : dispatchPlayerAction cat s actor t p = .ok (s', r)) :
    s'.actionHistory = s.actionHistory ∧ s'.version = s.version := by
  simp only [dispatchPlayerAction] at h
  split at h
  · exact ⟨(resolveMove_hv s actor p s' r h).1, (resolveMove_hv s actor p s' r h).2.1⟩
  split at h
  · exact ⟨(resolveShoot_hv cat s actor p s' r h).1,
           (resolveShoot_hv cat s actor p s' r h).2.1⟩
  split at h
  · exact ⟨(resolveCraftWeapon_hv cat s actor p s' r h).1,
           (resolveCraftWeapon_hv cat s actor p s' r h).2.1⟩
  split at h
  · exact ⟨(resolveCraftWall_hv cat s actor p s' r h).1,
           (resolveCraftWall_hv cat s actor p s' r h).2.1⟩
  split at h
  · exact ⟨(resolveHeal_hv cat s actor p s' r h).1, (resolveHeal_hv cat s actor p s' r h).2.1⟩
  split at h
  · exact ⟨(resolveInteract_hv s actor p s' r h).1, (resolveInteract_hv s actor p s' r h).2.1⟩
  split at h
  · injection h with hpair
    have hs : s' = s := (congrArg Prod.fst hpair).symm
    subst hs
    exact ⟨rfl, rfl⟩
  · exact Except.noConfusion h

theorem dispatchAi_hv (cat : Catalog) (s : GameState) (cand : Candidate)
    (s' : GameState) (r : ResolveOut) (h : dispatchAiAction cat s cand = .ok (s', r)) :
    s'.actionHistory = s.actionHistory ∧ s'.version = s.version ∧
    (r.consumeTurn = false → ¬ isTurnConsuming cand.ctype) := by
  simp only [dispatchAiAction] at h
  split at h
  · have hm := resolveMove_hv s "ai" cand.params s' r h
    exact ⟨hm.1, hm.2.1, fun hf => Bool.noConfusion (hf.symm.trans hm.2.2)⟩
  split at h
  · have hm := resolveShoot_hv cat s "ai" cand.params s' r h
    exact ⟨hm.1, hm.2.1, fun hf => Bool.noConfusion (hf.symm.trans hm.2.2)⟩
  split at h
  · have hm := resolveCraftWall_hv cat s "ai" cand.params s' r h
    exact ⟨hm.1, hm.2.1, fun hf => Bool.noConfusion (hf.symm.trans hm.2.2)⟩
  split at h
  · rename_i ht
    have hm := resolveCraftWeapon_hv cat s "ai" cand.params s' r h
    refine ⟨hm.1, hm.2.1, fun _ => ?_⟩
    rw [ht]; decide
  split at h
  · rename_i ht
    have hm := resolveHeal_hv cat s "ai" cand.params s' r h
    refine ⟨hm.1, hm.2.1, fun _ => ?_⟩
    rw [ht]; decide
  split at h
  · exact Except.noConfusion h
  · exact Except.noConfusion h

theorem aiTakeTurnLoop_spec (cat : Catalog) (sel : AiSelect) :
    ∀ (n : Nat) (s s' : GameState) (out : AiOut),
      aiTakeTurnLoop cat sel s n = .ok (s', out) →
      s'.version = s.version ∧
      ∃ delta : List HistEntry,
        s'.actionHistory = s.actionHistory ++ delta ∧
        delta.length ≤ n ∧
        (∀ e ∈ delta.dropLast, ¬ isTurnConsuming e.action) ∧
        ∀ e ∈ delta, e.actor = "ai" := by
  intro n
  induction n with
  | zero =>
    intro s s' out h
    simp only [aiTakeTurnLoop] at h
    injection h with hpair
    have hs : s' = s := (congrArg Prod.fst hpair).symm
    subst hs
    exact ⟨rfl, [], (List.append_nil _).symm, Nat.le_refl 0,
           fun e he => absurd he (by simp), fun e he => absurd he (by simp)⟩
  | succ n ih =>
    intro s s' out h
    simp only [aiTakeTurnLoop] at h
    split at h
    · split at h
      · injection h with hpair
        have hs : s' = s := (congrArg Prod.fst hpair).symm
        subst hs
        exact ⟨rfl, [], (List.append_nil _).symm, Nat.zero_le _,
               fun e he => absurd he (by simp), fun e he => absurd he (by simp)⟩
      · rcases hd : dispatchAiAction cat s (sel s (enumerateAiCandidates cat s))
          with e | ⟨s₁, r⟩ <;> rw [hd] at h <;> dsimp only at h
        · exact Except.noConfusion h
        obtain ⟨hh, hv, hfr⟩ := dispatchAi_hv cat s _ s₁ r hd
        split at h
        · injection h with hpair
          have hs : s' = _ := (congrArg Prod.fst hpair).symm
          subst hs
          refine ⟨hv, [⟨"ai", (sel s (enumerateAiCandidates cat s)).ctype⟩], ?_, ?_, ?_, ?_⟩
          · show s₁.actionHistory ++ [(⟨"ai", (sel s (enumerateAiCandidates cat s)).ctype⟩ :
              HistEntry)] = _
            rw [hh]
          · exact Nat.succ_le_succ (Nat.zero_le n)
          · exact fun e he => absurd he (by simp)
          · intro e he
            have he' : e = ⟨"ai", (sel s (enumerateAiCandidates cat s)).ctype⟩ := by
              simpa using he
            subst he'
            rfl
        · split at h
          · injection h with hpair
            have hs : s' = _ := (congrArg Prod.fst hpair).symm
            subst hs
            refine ⟨hv, [⟨"ai", (sel s (enumerateAiCandidates cat s)).ctype⟩], ?_, ?_, ?_, ?_⟩
            · show s₁.actionHistory ++ [(⟨"ai", (sel s (enumerateAiCandidates cat s)).ctype⟩ :
                HistEntry)] = _
              rw [hh]
            · exact Nat.succ_le_succ (Nat.zero_le n)
            · exact fun e he => absurd he (by simp)
            · intro e he
              have he' : e = ⟨"ai", (sel s (enumerateAiCandidates cat s)).ctype⟩ := by
                simpa using he
              subst he'
              rfl
          · rename_i hnc
            have hrc : r.consumeTurn = false := by
              revert hnc; cases r.consumeTurn <;> simp
            obtain ⟨hv', delta', hh', hl', hfree', hac'⟩ := ih _ s' out h
            refine ⟨hv'.trans hv, (⟨"ai", (sel s (enumerateAiCandidates cat s)).ctype⟩ :
              HistEntry) :: delta', ?_, ?_, ?_, ?_⟩
            · rw [hh']
              show s₁.actionHistory ++ [(⟨"ai", (sel s (enumerateAiCandidates cat s)).ctype⟩ :
                HistEntry)] ++ delta' = _
              rw [hh, List.append_assoc]
              rfl
            · exact Nat.succ_le_succ hl'
            · intro e he
              rcases delta' with _ | ⟨d0, dtl⟩
              · exact absurd he (by simp)
              · rw [List.dropLast_cons₂] at he
                rcases List.mem_cons.1 he with he | he
                · subst he; exact hfr hrc
                · exact hfree' e he
            · intro e he
              rcases List.mem_cons.1 he with he | he
              · subst he; rfl
              · exact hac' e he
    · injection h with hpair
      have hs : s' = s := (congrArg Prod.fst hpair).symm
      subst hs
      exact ⟨rfl, [], (List.append_nil _).symm, Nat.zero_le _,
             fun e he => absurd he (by simp), fun e he => absurd he (by simp)⟩

/-- C6: for every selection policy, whenever the AI turn returns a
result the action history grows by at most 2 entries, every appended
entry except possibly the last resolves a free (non-turn-consuming)
action, and every appended entry is an AI action — so at most
`maxFreeActions = 2` free actions are resolved before the budget
hard-stops the loop, regardless of how the policy scores the
candidates.  The loop is embedded as a structural recursion on the
free-action budget, so it terminates on every input by construction. -/
theorem c6_ai_free_action_cap (cat : Catalog) (sel : AiSelect) (s : GameState)
    (s' : GameState) (out : AiOut) (h : aiTakeTurn cat sel s = .ok (s', out)) :
    ∃ delta : List HistEntry,
      s'.actionHistory = s.actionHistory ++ delta ∧
      delta.length ≤ 2 ∧
      (∀ e ∈ delta.dropLast, ¬ isTurnConsuming e.action) ∧
      ∀ e ∈ delta, e.actor = "ai" := by
  simp only [aiTakeTurn] at h
  split at h
  · injection h with hpair
    have hs : s' = s := (congrArg Prod.fst hpair).symm
    subst hs
    exact ⟨[], (List.append_nil _).symm, Nat.zero_le _,
           fun e he => absurd he (by simp), fun e he => absurd he (by simp)⟩
  · exact (aiTakeTurnLoop_spec cat sel 2 s s' out h).2

/-- C6 (witness): in the 3×3 scenario with the AI to move, the head-first
selection policy resolves one MOVE — a single turn-consuming AI history
entry. -/
theorem c6_cap_witness :
    ∃ delta : List HistEntry,
      ({ egState with
          currentActor := "ai"
          ai := { egAi with pos := (1, 2) }
          actionHistory := [⟨"ai", "MOVE"⟩] } : GameState).actionHistory
        = ({ egState with currentActor := "ai" } : GameState).actionHistory ++ delta ∧
      delta.length ≤ 2 ∧
      (∀ e ∈ delta.dropLast, ¬ isTurnConsuming e.action) ∧
      ∀ e ∈ delta, e.actor = "ai" :=
  c6_ai_free_action_cap egCatalog egSel { egState with currentActor := "ai" }
    { egState with
        currentActor := "ai"
        ai := { egAi with pos := (1, 2) }
        actionHistory := [⟨"ai", "MOVE"⟩] }
    ⟨true, some { consumeTurn := true }⟩ (by rfl)

theorem persistUpdate_false (db : Db) (lv : Nat) (sv : Option Nat) (next : GameState)
    (h : (persistUpdate db lv sv next).2 = false) :
    (persistUpdate db lv sv next).1 = db := by
  rcases hag : db.activeGame with _ | stored <;> simp only [persistUpdate, hag] at h ⊢
  by_cases hc : casMatches sv lv stored
  · rw [if_pos hc] at h; exact Bool.noConfusion h
  · rw [if_neg hc]

theorem persistPhase_reject (db : Db) (lv : Nat) (sv : Option Nat) (next : GameState)
    (resp : UpdateResp) (db' : Db) (h : persistPhase db lv sv next = (resp, db'))
    (hrej : isRejection resp) : db' = db := by
  dsimp only [persistPhase] at h
  by_cases hp : (persistUpdate db lv sv { next with version := next.version + 1 }).2 = true
  · rw [if_pos hp] at h
    injection h with ha hb
    rw [← ha] at hrej
    exact False.elim hrej
  · rw [if_neg hp] at h
    injection h with ha hb
    rw [← hb]
    exact persistUpdate_false _ _ _ _ (Bool.eq_false_iff.mpr hp)

theorem aiPhase_reject (cat : Catalog) (sel : AiSelect) (db : Db) (active : GameState)
    (req : UpdateReq) (next₂ : GameState) (resp : UpdateResp) (db' : Db)
    (h : aiPhase cat sel db active req next₂ = (resp, db'))
    (hrej : isRejection resp) : db' = db := by
  dsimp only [aiPhase] at h
  by_cases hc : next₂.status = "active" ∧ next₂.currentActor = "ai"
  · rw [if_pos hc] at h
    rcases hai : aiTakeTurn cat sel next₂ with e | ⟨next₃, aiOut⟩ <;> rw [hai] at h <;>
      dsimp only at h
    · injection h with ha hb
      exact hb.symm
    by_cases he : aiOut.result.any (fun r => r.ended) = true
    · rw [if_pos he] at h
      injection h with ha hb
      rw [← ha] at hrej
      exact False.elim hrej
    · rw [if_neg he] at h
      exact persistPhase_reject _ _ _ _ _ _ h hrej
  · rw [if_neg hc] at h
    exact persistPhase_reject _ _ _ _ _ _ h hrej

theorem updateReject_db (cat : Catalog) (sel : AiSelect) (db : Db) (req : UpdateReq)
    (resp : UpdateResp) (db' : Db) (h : updateEndpoint cat sel db req = (resp, db'))
    (hrej : isRejection resp) : db' = db := by
  dsimp only [updateEndpoint] at h
  by_cases h1 : req.actor = "" ∨ req.actionType = ""
  · rw [if_pos h1] at h
    injection h with ha hb
    exact hb.symm
  rw [if_neg h1] at h
  rcases hag : db.activeGame with _ | active <;> rw [hag] at h <;> dsimp only at h
  · injection h with ha hb
    exact hb.symm
  by_cases h2 : (req.snapshotVersion.any fun v => v != active.version) = true
  · rw [if_pos h2] at h
    injection h with ha hb
    exact hb.symm
  rw [if_neg h2] at h
  by_cases h3 : active.status ≠ "active"
  · rw [if_pos h3] at h
    injection h with ha hb
    exact hb.symm
  rw [if_neg h3] at h
  by_cases h4 : isTurnConsuming req.actionType ∧ active.currentActor ≠ req.actor
  · rw [if_pos h4] at h
    injection h with ha hb
    exact hb.symm
  rw [if_neg h4] at h
  by_cases h5 : ¬ knownAction req.actionType
  · rw [if_pos h5] at h
    injection h with ha hb
    exact hb.symm
  rw [if_neg h5] at h
  rcases hdp : dispatchPlayerAction cat active req.actor req.actionType req.params
    with msg | ⟨next₀, pr⟩ <;> rw [hdp] at h <;> dsimp only at h
  · injection h with ha hb
    exact hb.symm
  by_cases h6 : pr.ended = true
  · rw [if_pos h6] at h
    injection h with ha hb
    rw [← ha] at hrej
    exact False.elim hrej
  rw [if_neg h6] at h
  exact aiPhase_reject _ _ _ _ _ _ _ _ h hrej

/-- C2: every rejected `/update` call — validation failure, version or
turn conflict, unknown action type, resolver error or CAS conflict —
leaves the store unchanged: all mutation happens on the working copy and
nothing is persisted on an error path. -/
theorem c2_rejection_no_change (cat : Catalog) (sel : AiSelect) (db : Db) (req : UpdateReq)
    (resp : UpdateResp) (db' : Db) (h : updateEndpoint cat sel db req = (resp, db'))
    (hrej : isRejection resp) : db' = db :=
  updateReject_db cat sel db req resp db' h hrej

/-- C2 (witness): an unknown action type is rejected and the store is
returned unchanged. -/
theorem c2_rejection_witness :
    (updateEndpoint egCatalog egSel egDb
      { actor := "player", actionType := "FOO", params := {}, snapshotVersion := some 1 }).2
      = egDb :=
  c2_rejection_no_change egCatalog egSel egDb
    { actor := "player", actionType := "FOO", params := {}, snapshotVersion := some 1 }
    _ _ rfl (by decide)


theorem persistUpdate_true (db : Db) (lv : Nat) (sv : Option Nat) (next : GameState)
    (h : (persistUpdate db lv sv next).2 = true) :
    ∃ stored, db.activeGame = some stored ∧
      (persistUpdate db lv sv next).1
        = { db with activeGame := some (applyUpdateSet stored next) } := by
  unfold persistUpdate at h ⊢
  rcases hag : db.activeGame with _ | stored <;> rw [hag] at h <;> dsimp only at h ⊢
  · exact Bool.noConfusion h
  · by_cases hc : casMatches sv lv stored
    · rw [if_pos hc]
      exact ⟨stored, rfl, rfl⟩
    · rw [if_neg hc] at h
      exact Bool.noConfusion h

theorem turnFlip_version (req : UpdateReq) (pr : ResolveOut) (g : GameState) :
    (turnFlip req pr g).version = g.version := by
  unfold turnFlip; split <;> rfl

theorem aiTurnFlip_version (aiOut : AiOut) (g : GameState) :
    (aiTurnFlip aiOut g).version = g.version := by
  unfold aiTurnFlip; split <;> rfl

theorem aiTakeTurn_version (cat : Catalog) (sel : AiSelect) (s s' : GameState) (out : AiOut)
    (h : aiTakeTurn cat sel s = .ok (s', out)) : s'.version = s.version := by
  simp only [aiTakeTurn] at h
  split at h
  · injection h with hpair
    have hs : s' = s := (congrArg Prod.fst hpair).symm
    subst hs
    rfl
  · exact (aiTakeTurnLoop_spec cat sel 2 s s' out h).1

theorem persistPhase_version (db : Db) (lv : Nat) (sv : Option Nat) (next : GameState)
    (resp : UpdateResp) (db' : Db) (h : persistPhase db lv sv next = (resp, db')) :
    ∀ snap g', resp = .okSnapshot snap → db'.activeGame = some g' →
      snap.version = next.version + 1 ∧ g'.version = next.version + 1 := by
  dsimp only [persistPhase] at h
  by_cases hp : (persistUpdate db lv sv { next with version := next.version + 1 }).2 = true
  · rw [if_pos hp] at h
    injection h with ha hb
    intro snap g' hsnap hg'
    rw [← ha] at hsnap
    injection hsnap with hsnap
    subst hsnap
    obtain ⟨stored, hst, hdb⟩ := persistUpdate_true _ _ _ _ hp
    rw [hb] at hdb
    rw [hdb] at hg'
    have hg'' : applyUpdateSet stored { next with version := next.version + 1 } = g' := by
      injection hg'
    rw [← hg'']
    exact ⟨rfl, rfl⟩
  · rw [if_neg hp] at h
    injection h with ha hb
    intro snap g' hsnap hg'
    rw [← ha] at hsnap
    exact UpdateResp.noConfusion hsnap

theorem aiPhase_version (cat : Catalog) (sel : AiSelect) (db : Db) (active : GameState)
    (req : UpdateReq) (next₂ : GameState) (resp : UpdateResp) (db' : Db)
    (h : aiPhase cat sel db active req next₂ = (resp, db')) :
    ∀ snap g', resp = .okSnapshot snap → db'.activeGame = some g' →
      snap.version = next₂.version + 1 ∧ g'.version = next₂.version + 1 := by
  dsimp only [aiPhase] at h
  by_cases hc : next₂.status = "active" ∧ next₂.currentActor = "ai"
  · rw [if_pos hc] at h
    rcases hai : aiTakeTurn cat sel next₂ with e | ⟨next₃, aiOut⟩ <;> rw [hai] at h <;>
      dsimp only at h
    · intro snap g' hsnap hg'
      injection h with ha hb
      rw [← ha] at hsnap
      exact UpdateResp.noConfusion hsnap
    have hv3 : next₃.version = next₂.version := aiTakeTurn_version cat sel next₂ next₃ aiOut hai
    by_cases he : aiOut.result.any (fun r => r.ended) = true
    · rw [if_pos he] at h
      injection h with ha hb
      intro snap g' hsnap hg'
      rw [← hb] at hg'
      exact Option.noConfusion hg'
    · rw [if_neg he] at h
      intro snap g' hsnap hg'
      have hpv := persistPhase_version _ _ _ _ _ _ h snap g' hsnap hg'
      rw [aiTurnFlip_version, hv3] at hpv
      exact hpv
  · rw [if_neg hc] at h
    exact persistPhase_version _ _ _ _ _ _ h

theorem updateOk_version (cat : Catalog) (sel : AiSelect) (db : Db) (req : UpdateReq)
    (resp : UpdateResp) (db' : Db) (active : GameState)
    (hag : db.activeGame = some active)
    (h : updateEndpoint cat sel db req = (resp, db')) :
    ∀ snap g', resp = .okSnapshot snap → db'.activeGame = some g' →
      snap.version = active.version + 1 ∧ g'.version = active.version + 1 := by
  dsimp only [updateEndpoint] at h
  rw [hag] at h
  dsimp only at h
  by_cases h1 : req.actor = "" ∨ req.actionType = ""
  · rw [if_pos h1] at h
    intro snap g' hsnap hg'
    injection h with ha hb
    rw [← ha] at hsnap
    exact UpdateResp.noConfusion hsnap
  rw [if_neg h1] at h
  by_cases h2 : (req.snapshotVersion.any fun v => v != active.version) = true
  · rw [if_pos h2] at h
    intro snap g' hsnap hg'
    injection h with ha hb
    rw [← ha] at hsnap
    exact UpdateResp.noConfusion hsnap
  rw [if_neg h2] at h
  by_cases h3 : active.status ≠ "active"
  · rw [if_pos h3] at h
    intro snap g' hsnap hg'
    injection h with ha hb
    rw [← ha] at hsnap
    exact UpdateResp.noConfusion hsnap
  rw [if_neg h3] at h
  by_cases h4 : isTurnConsuming req.actionType ∧ active.currentActor ≠ req.actor
  · rw [if_pos h4] at h
    intro snap g' hsnap hg'
    injection h with ha hb
    rw [← ha] at hsnap
    exact UpdateResp.noConfusion hsnap
  rw [if_neg h4] at h
  by_cases h5 : ¬ knownAction req.actionType
  · rw [if_pos h5] at h
    intro snap g' hsnap hg'
    injection h with ha hb
    rw [← ha] at hsnap
    exact UpdateResp.noConfusion hsnap
  rw [if_neg h5] at h
  rcases hdp : dispatchPlayerAction cat active req.actor req.actionType req.params
    with msg | ⟨next₀, pr⟩ <;> rw [hdp] at h <;> dsimp only at h
  · intro snap g' hsnap hg'
    injection h with ha hb
    rw [← ha] at hsnap
    exact UpdateResp.noConfusion hsnap
  have hv0 : next₀.version = active.version :=
    (dispatchPlayer_hv cat active req.actor req.actionType req.params next₀ pr hdp).2
  by_cases h6 : pr.ended = true
  · rw [if_pos h6] at h
    intro snap g' hsnap hg'
    injection h with ha hb
    rw [← hb] at hg'
    exact Option.noConfusion hg'
  rw [if_neg h6] at h
  intro snap g' hsnap hg'
  have hpv := aiPhase_version _ _ _ _ _ _ _ _ h snap g' hsnap hg'
  rw [turnFlip_version] at hpv
  have hv1 : ({ next₀ with
      actionHistory := next₀.actionHistory ++ [⟨req.actor, req.actionType⟩] } :
      GameState).version = active.version := hv0
  rw [hv1] at hpv
  exact hpv

/-- C1 (amended): on a successful `/update` whose result is still an
active match, both the answered snapshot and the stored document carry
`version = loaded version + 1`; every rejected call leaves the store
unchanged; and the write filter enforces the CAS predicate
`version == loaded version` **only when the request supplied a numeric
`snapshotVersion`** — with `snapshotVersion` absent the `updateOne`
filter carries no version predicate at all (see the counterexample). -/
theorem c1_version_and_cas (cat : Catalog) (sel : AiSelect) (db : Db) (req : UpdateReq)
    (resp : UpdateResp) (db' : Db) (active : GameState)
    (hag : db.activeGame = some active)
    (h : updateEndpoint cat sel db req = (resp, db')) :
    (∀ snap g', resp = .okSnapshot snap → db'.activeGame = some g' →
      snap.version = active.version + 1 ∧ g'.version = active.version + 1) ∧
    (isRejection resp → db' = db) ∧
    (∀ (db₂ : Db) (stored next : GameState) (v : Nat), req.snapshotVersion = some v →
      db₂.activeGame = some stored →
      ((persistUpdate db₂ active.version req.snapshotVersion next).2 = true ↔
        stored.version = active.version)) := by
  refine ⟨updateOk_version cat sel db req resp db' active hag h,
          fun hrej => updateReject_db cat sel db req resp db' h hrej, ?_⟩
  intro db₂ stored next v hv hag₂
  rw [hv]
  unfold persistUpdate
  rw [hag₂]
  dsimp only
  by_cases hc : casMatches (some v) active.version stored
  · rw [if_pos hc]
    simp only [casMatches] at hc
    exact ⟨fun _ => hc, fun _ => rfl⟩
  · rw [if_neg hc]
    simp only [casMatches] at hc
    exact ⟨fun hf => Bool.noConfusion hf, fun he => absurd he hc⟩

/-- C1 (counterexample): with `snapshotVersion` absent the persist is not
CAS-guarded — a store whose version has drifted to 7 since the load at
version 5 is still matched and silently overwritten. -/
theorem c1_cas_counterexample :
    (persistUpdate ⟨"m1", some { egState with version := 7 }, []⟩ 5 none
        { egState with version := 6 }).2 = true ∧
    ({ egState with version := 7 } : GameState).version ≠ 5 ∧
    ((persistUpdate ⟨"m1", some { egState with version := 7 }, []⟩ 5 none
        { egState with version := 6 }).1.activeGame.map GameState.version) = some 6 := by
  refine ⟨rfl, by decide, rfl⟩

/-- C1 (witness): a successful CRAFT_WEAPON update on the version-1 match
answers and stores version 2. -/
theorem c1_version_witness :
    c1Snap.version = egState.version + 1 ∧
    (applyUpdateSet egState c1Snap).version = egState.version + 1 :=
  (c1_version_and_cas egCatalog egSel egDb
    { actor := "player", actionType := "CRAFT_WEAPON",
      params := { key := some "weapon.straight.t1" }, snapshotVersion := some 1 }
    (.okSnapshot c1Snap)
    { egDb with activeGame := some (applyUpdateSet egState c1Snap) }
    egState rfl (by rfl)).1 c1Snap (applyUpdateSet egState c1Snap) rfl rfl


/-- C9 (amended): on an existing match, provided the resign is for the
AI side or the requester is a participant (the route checks
participation **before** the already-ended check, so a non-participant
gets a 403 even on an ended match — see the counterexample): an
already-ended match yields a 200-level no-op carrying the existing
summary with the store unchanged, and an active match yields
`winner = opposite(side)` with reason `"resign"`, the summary document
appended to history and the active document removed. -/
theorem c9_resign_behaviour (db : Db) (req : ResignReq) (active : GameState)
    (hag : db.activeGame = some active)
    (hauth : resignSide req = "player" →
      ∃ p ∈ active.players, p.userId.getD "" = req.userId.getD "") :
    (active.status = "ended" →
      resignEndpoint db req
        = (.alreadyEnded ⟨active.turnIndex, active.winner, some (active.reason.getD "ended")⟩,
           db)) ∧
    (active.status ≠ "ended" →
      resignEndpoint db req
        = (.resigned ⟨active.turnIndex, some (resignWinner active (resignSide req)),
             some "resign"⟩,
           { db with
             historical := db.historical ++ [.endArchive db.matchId
               ⟨active.turnIndex, some (resignWinner active (resignSide req)), some "resign"⟩],
             activeGame := none })) ∧
    (resignWinner active (resignSide req)).side
      = some (if resignSide req = "player" then "ai" else "player") := by
  have hgate : ¬ (resignSide req = "player" ∧
      ¬ (∃ p ∈ active.players, p.userId.getD "" = req.userId.getD "")) :=
    fun hand => hand.2 (hauth hand.1)
  refine ⟨?_, ?_, ?_⟩
  · intro hend
    unfold resignEndpoint
    rw [hag]
    dsimp only
    rw [if_neg hgate, if_pos hend]
  · intro hne
    unfold resignEndpoint
    rw [hag]
    dsimp only
    rw [if_neg hgate, if_neg hne]
  · unfold resignWinner
    split <;> rfl

/-- C9 (counterexample): a non-participant resign on an **already ended**
match is answered 403, not the claimed 200-level no-op — the route
checks participation before the ended check. -/
theorem c9_nonparticipant_counterexample :
    resignEndpoint
      { matchId := "m1", activeGame := some { egState with status := "ended" },
        historical := [] }
      { userId := some "mallory", side := some "player" }
      = (.forbidden,
         { matchId := "m1", activeGame := some { egState with status := "ended" },
           historical := [] }) := by
  decide

/-- C9 (witness): the participant `u1` resigns the active match; the AI
is recorded as winner with reason `"resign"`, the summary is archived
and the active document is deleted. -/
theorem c9_resign_witness :
    resignEndpoint egDb { userId := some "u1", side := none }
      = (.resigned ⟨0, some (resignWinner egState "player"), some "resign"⟩,
         { egDb with
           historical := [.endArchive "m1"
             ⟨0, some (resignWinner egState "player"), some "resign"⟩],
           activeGame := none }) :=
  (c9_resign_behaviour egDb { userId := some "u1", side := none } egState rfl
    (fun _ => ⟨⟨"A", "player", some "u1", "alice"⟩, by decide, by decide⟩)).2.1 (by decide)
